import Mathlib

/-!
Verification of the match-rules engine of a multiplayer hockey game server.

The development is a shallow embedding of two Rust source files:

* `src/hqm_match_util.rs` — the match engine (rule state machines, puck-touch
  ledger, goal attribution, clock, faceoff position assignment).
* `src/hqm_server.rs` — an (older) server: session registry, player removal.

Machine integers (`u32`, `usize`) are embedded as `Nat`; Rust's
`saturating_sub` coincides with `Nat` subtraction.  Floating-point quantities
(positions, speeds) are never branched on by the verified logic except through
geometric predicates that the embedding receives from an explicit environment
(`HQMEnv`), mirroring the fact that the physics world is an external
collaborator of the match engine; the stored values themselves are carried as
opaque `Nat` tokens.  Chat messages are represented by an inductive message
type, one constructor per `format!`/string literal in the source.
-/

/-! ## Basic data model (from `hqm_match_util.rs` and `hqm_game.rs` usage) -/

/-- Teams. `Spec` never reaches the match engine (skaters always carry
`Red`/`Blue`), so only the two on-ice teams are embedded. -/
inductive HQMTeam where
  | red
  | blue
deriving DecidableEq, Repr

/-- `HQMTeam::get_other_team`. -/
def HQMTeam.get_other_team : HQMTeam → HQMTeam
  | .red => .blue
  | .blue => .red

inductive HQMRinkSide where
  | left
  | right
deriving DecidableEq, Repr

inductive HQMRinkFaceoffSpot where
  | center
  | defensiveZone (team : HQMTeam) (side : HQMRinkSide)
  | offside (team : HQMTeam) (side : HQMRinkSide)
deriving DecidableEq, Repr

/-- `HQMPassPosition`, a Rust enum deriving `Ord` by declaration order. -/
inductive HQMPassPosition where
  | none
  | reachedOwnBlue
  | passedOwnBlue
  | reachedCenter
  | passedCenter
  | reachedOffensive
  | passedOffensive
deriving DecidableEq, Repr

/-- Declaration-order rank, giving the derived `Ord` of the Rust enum. -/
def HQMPassPosition.rank : HQMPassPosition → Nat
  | .none => 0
  | .reachedOwnBlue => 1
  | .passedOwnBlue => 2
  | .reachedCenter => 3
  | .passedCenter => 4
  | .reachedOffensive => 5
  | .passedOffensive => 6

/-- `a <= b` on `HQMPassPosition` (Rust derived `PartialOrd`). -/
def HQMPassPosition.ple (a b : HQMPassPosition) : Bool :=
  a.rank ≤ b.rank

structure HQMPass where
  team : HQMTeam
  side : HQMRinkSide
  from_pos : Option HQMPassPosition
  player : Nat
deriving DecidableEq, Repr

inductive HQMIcingStatus where
  | no
  | warning (team : HQMTeam) (side : HQMRinkSide)
  | icing (team : HQMTeam)
deriving DecidableEq, Repr

inductive HQMOffsideStatus where
  | neutral
  | inOffensiveZone (team : HQMTeam)
  | warning (team : HQMTeam) (side : HQMRinkSide) (position : Option HQMPassPosition)
      (player : Nat)
  | offside (team : HQMTeam)
deriving DecidableEq, Repr

inductive HQMTwoLinePassStatus where
  | no
  | warning (team : HQMTeam) (side : HQMRinkSide) (position : HQMPassPosition)
      (players : List Nat)
  | offside (team : HQMTeam)
deriving DecidableEq, Repr

inductive HQMIcingConfiguration where
  | off
  | touch
  | notouch
deriving DecidableEq, Repr

inductive HQMOffsideConfiguration where
  | off
  | delayed
  | immediate
deriving DecidableEq, Repr

inductive HQMTwoLinePassConfiguration where
  | off
  | on
  | forward
  | double
  | threeline
deriving DecidableEq, Repr

inductive HQMOffsideLineConfiguration where
  | offensiveBlue
  | center
deriving DecidableEq, Repr

/-- `HQMRulesState` (from `hqm_game.rs`, as used by `after_tick`). -/
inductive HQMRulesState where
  | regular (offside_warning : Bool) (icing_warning : Bool)
  | offside
  | icing
deriving DecidableEq, Repr

/-- `HQMMatchConfiguration`.  Physics configuration, warmup puck count,
blue-line location and rink geometry stay with the external world and are not
needed by any verified function. -/
structure HQMMatchConfiguration where
  time_period : Nat
  time_warmup : Nat
  time_break : Nat
  time_intermission : Nat
  mercy : Nat
  first_to : Nat
  periods : Nat
  offside : HQMOffsideConfiguration
  icing : HQMIcingConfiguration
  offside_line : HQMOffsideLineConfiguration
  twoline_pass : HQMTwoLinePassConfiguration
  use_mph : Bool
  goal_replay : Bool
deriving DecidableEq, Repr

/-- `HQMPuckTouch`.  `puck_pos` and `puck_speed` are opaque tokens standing
for the stored `Point3<f32>` / `f32` values; the engine never branches on
them. -/
structure HQMPuckTouch where
  player_index : Nat
  skater_index : Nat
  team : HQMTeam
  puck_pos : Nat
  puck_speed : Nat
  first_time : Nat
  last_time : Nat
deriving DecidableEq, Repr

/-- The puck state read by the match engine: position token, speed token
(`linear_velocity.norm()`), and whether `pos.x <= rink.width / 2` (the side
computation in `handle_puck_touch`, resolved by the external geometry). -/
structure HQMPuckData where
  pos : Nat
  speed : Nat
  left_half : Bool
deriving DecidableEq, Repr

/-! ## Association lists

`HashMap` values of the source (`puck_touches`, faceoff `positions`) are
embedded as association lists with insert-overwrites-key semantics. -/

def alist_get {α : Type} : List (Nat × α) → Nat → Option α
  | [], _ => none
  | (k, v) :: rest, k' => if k = k' then some v else alist_get rest k'

def alist_insert {α : Type} : List (Nat × α) → Nat → α → List (Nat × α)
  | [], k, v => [(k, v)]
  | (k', v') :: rest, k, v =>
      if k' = k then (k, v) :: rest else (k', v') :: alist_insert rest k v

def alist_contains {α : Type} (m : List (Nat × α)) (k : Nat) : Bool :=
  (alist_get m k).isSome

/-! ## Puck-touch ledger: `add_touch` -/

/-- `add_touch` (`hqm_match_util.rs:993`), at the level of one puck's deque.
The deque is a list with the newest entry at the head.  If the front entry was
made by the same player on the same team it is updated in place; otherwise the
deque is truncated to 15 entries and a fresh entry is pushed to the front. -/
def add_touch (puck : HQMPuckData) (touches : List HQMPuckTouch)
    (player_index skater_index : Nat) (team : HQMTeam) (time : Nat) :
    List HQMPuckTouch :=
  match touches with
  | most_recent :: rest =>
    if most_recent.player_index = player_index ∧ most_recent.team = team then
      { most_recent with
          puck_pos := puck.pos
          last_time := time
          puck_speed := puck.speed } :: rest
    else
      { player_index := player_index
        skater_index := skater_index
        team := team
        puck_pos := puck.pos
        puck_speed := puck.speed
        first_time := time
        last_time := time } :: (most_recent :: rest).take 15
  | [] =>
      [{ player_index := player_index
         skater_index := skater_index
         team := team
         puck_pos := puck.pos
         puck_speed := puck.speed
         first_time := time
         last_time := time }]

/-- Two adjacent ledger entries never share the same (player, team) pair. -/
def TouchDistinct (a b : HQMPuckTouch) : Prop :=
  ¬(a.player_index = b.player_index ∧ a.team = b.team)

/-- The touch-ledger invariant: at most 16 entries, adjacent entries have
distinct (player, team) pairs. -/
def TouchInv (l : List HQMPuckTouch) : Prop :=
  l.length ≤ 16 ∧ l.Chain' TouchDistinct

/-! ## Goal attribution scan (`call_goal`, `hqm_match_util.rs:231-261`) -/

/-- The touch-deque scan loop of `call_goal`, front-to-back (newest first).
Accumulator: `goal_scorer_index`, `goal_scorer_first_touch`,
`puck_speed_from_stick`.  Returns (scorer, assist, speed from stick).
The `break` of the source is the non-recursive branch. -/
def goal_scan (team : HQMTeam) (gsi : Option Nat) (gft : Nat) (sp : Option Nat) :
    List HQMPuckTouch → Option Nat × Option Nat × Option Nat
  | [] => (gsi, none, sp)
  | touch :: rest =>
    match gsi with
    | none =>
      if touch.team = team then
        goal_scan team (some touch.player_index) touch.first_time (some touch.puck_speed) rest
      else
        goal_scan team none gft sp rest
    | some g =>
      if touch.team = team then
        if touch.player_index = g then
          goal_scan team (some g) touch.first_time sp rest
        else
          let diff := touch.last_time - gft
          (some g, if diff ≤ 1000 then some touch.player_index else none, sp)
      else
        goal_scan team (some g) gft sp rest

/-! Specification-side reformulation of the scan, following the claim text:
the scorer is the player of the first entry whose team is the scoring team;
the assist is the player of the next entry with that team and a distinct
player, awarded iff that entry's `last_time` minus the scorer's (possibly
refreshed) `first_time` is at most 1000; scorer entries met again only
refresh `first_time`. -/

/-- Spec wording: the goal scorer is the player of the first entry with the
scoring team. -/
def scorer_spec (team : HQMTeam) (l : List HQMPuckTouch) : Option Nat :=
  (l.find? (fun t => t.team == team)).map (fun t => t.player_index)

/-- Spec wording: splits the deque at the scorer's entry, returning it and the
remaining (older) entries. -/
def after_scorer (team : HQMTeam) : List HQMPuckTouch →
    Option (HQMPuckTouch × List HQMPuckTouch)
  | [] => none
  | t :: rest => if t.team = team then some (t, rest) else after_scorer team rest

/-- Spec wording: walk the entries after the scorer; entries of the scorer
refresh `first_time` and do not end the walk; the first entry of the scoring
team with a distinct player is the assist candidate, awarded iff its
`last_time` minus the current `first_time` is at most 1000 centiseconds. -/
def assist_walk (team : HQMTeam) (g : Nat) (gft : Nat) :
    List HQMPuckTouch → Option Nat
  | [] => none
  | t :: rest =>
    if t.team = team then
      if t.player_index = g then assist_walk team g t.first_time rest
      else if t.last_time - gft ≤ 1000 then some t.player_index else none
    else
      assist_walk team g gft rest

/-- Spec wording: the assist, determined from the entries after the scorer's
first (newest) entry. -/
def assist_spec (team : HQMTeam) (l : List HQMPuckTouch) : Option Nat :=
  match after_scorer team l with
  | Option.none => none
  | Option.some (t, rest) => assist_walk team t.player_index t.first_time rest

/-! ## Simulation events, chat messages, match events -/

/-- `HQMSimulationEvent` (from `hqm_simulate.rs`); the variants consumed by
`handle_events`, plus `ignored` standing for any variant handled by the
wildcard arm. -/
inductive HQMSimulationEvent where
  | puckEnteredNet (team : HQMTeam) (puck : Nat)
  | puckTouch (player : Nat) (puck : Nat)
  | puckReachedDefensiveLine (team : HQMTeam) (puck : Nat)
  | puckPassedDefensiveLine (team : HQMTeam) (puck : Nat)
  | puckReachedCenterLine (team : HQMTeam) (puck : Nat)
  | puckPassedCenterLine (team : HQMTeam) (puck : Nat)
  | puckReachedOffensiveZone (team : HQMTeam) (puck : Nat)
  | puckEnteredOffensiveZone (team : HQMTeam) (puck : Nat)
  | puckPassedGoalLine (team : HQMTeam) (puck : Nat)
  | ignored
deriving DecidableEq, Repr

/-- Server chat messages, one constructor per string built by the match
engine.  Formatted numbers are carried as raw values (speed tokens, raw
centisecond counts); the float-to-text conversion itself is presentation. -/
inductive HQMMsg where
  | icingWarning
  | icingCalled
  | icingWavedOff
  | offsideWarning
  | offsideCalled
  | offsideWavedOff
  | twoLineWarning
  | twoLineCalled
  | twoLineWavedOff
  | goalMessage (team : HQMTeam) (goal : Option Nat) (assist : Option Nat)
  | goalScoredChat (speed_across_line : Nat) (speed_from_stick : Option Nat) (use_mph : Bool)
  | secondsLeft (time : Nat)
  | tooLate (time : Nat)
  | goalReplay
deriving DecidableEq, Repr

/-- `HQMMatchEvent`. -/
inductive HQMMatchEvent where
  | goal (team : HQMTeam) (goal : Option Nat) (assist : Option Nat)
      (speed : Option Nat) (speed_across_line : Nat) (time : Nat) (period : Nat)
deriving DecidableEq, Repr

/-! ## The combined server/match state

Fields of `HQMGame` (scores, clock, flags), of `HQMServer` (step counter,
message sink), and of `HQMMatch` are gathered into one record; the source
threads them as `&mut self` / `&mut HQMServer`.  `game_id` counts `new_game`
calls so that "within a single game" is expressible. -/
structure SrvState where
  config : HQMMatchConfiguration
  red_score : Nat
  blue_score : Nat
  period : Nat
  time : Nat
  goal_message_timer : Nat
  game_over : Bool
  rules_state : HQMRulesState
  game_step : Nat
  game_id : Nat
  messages : List HQMMsg
  match_events : List HQMMatchEvent
  replay_queue : List (Nat × Nat × Option Nat)
  paused : Bool
  pause_timer : Nat
  is_pause_goal : Bool
  next_faceoff_spot : HQMRinkFaceoffSpot
  icing_status : HQMIcingStatus
  offside_status : HQMOffsideStatus
  twoline_pass_status : HQMTwoLinePassStatus
  pass : Option HQMPass
  started_as_goalie : List Nat
  faceoff_game_step : Nat
  step_where_period_ended : Nat
  too_late_printed_this_period : Bool
  start_next_replay : Option (Nat × Nat × Option Nat)
  puck_touches : List (Nat × List HQMPuckTouch)
deriving Repr

/-- The external world as seen by the match engine for one tick: player
lookup by skater object, puck lookup, geometric line predicates, and the
per-team rosters with preferred positions (for faceoffs).  These are the
calls the engine makes into `HQMServer`/`HQMGameWorld`. -/
structure HQMEnv where
  players : List Nat
  resolve : Nat → Option (Nat × HQMTeam)
  puck : Nat → Option HQMPuckData
  pastLine : Nat → HQMTeam → Bool → Bool
  pointPastMiddle : HQMTeam → HQMRinkFaceoffSpot → Bool
  roster : HQMTeam → List (Nat × Option String)

/-- `add_server_chat_message` / `add_server_chat_message_str`. -/
def add_msg (s : SrvState) (m : HQMMsg) : SrvState :=
  { s with messages := s.messages ++ [m] }

/-- `is_past_line` filtered over `server.players.iter()`, as used by
`has_players_in_offensive_zone` (`hqm_match_util.rs:1079`): the line is the
team's offensive line. -/
def has_players_in_offensive_zone (env : HQMEnv) (team : HQMTeam)
    (ignore_player : Option Nat) : Bool :=
  env.players.any (fun pi =>
    !(some pi == ignore_player) && env.pastLine pi team true)

/-! ## Status helper predicates (the `matches!` tests of the source) -/

def HQMOffsideStatus.isOffside : HQMOffsideStatus → Bool
  | .offside _ => true
  | _ => false

def HQMOffsideStatus.isWarning : HQMOffsideStatus → Bool
  | .warning _ _ _ _ => true
  | _ => false

def HQMTwoLinePassStatus.isOffside : HQMTwoLinePassStatus → Bool
  | .offside _ => true
  | _ => false

def HQMTwoLinePassStatus.isWarning : HQMTwoLinePassStatus → Bool
  | .warning _ _ _ _ => true
  | _ => false

def HQMIcingStatus.isIcing : HQMIcingStatus → Bool
  | .icing _ => true
  | _ => false

def HQMIcingStatus.isWarning : HQMIcingStatus → Bool
  | .warning _ _ => true
  | _ => false

/-! ## Game-over evaluation (`update_game_over`, `hqm_match_util.rs:171`) -/

/-- The if/else-if chain assigned to `server.game.game_over`. -/
def game_over_condition (s : SrvState) : Bool :=
  if s.period > s.config.periods ∧ s.red_score ≠ s.blue_score then
    true
  else if 0 < s.config.mercy ∧
      (s.red_score - s.blue_score ≥ s.config.mercy ∨
       s.blue_score - s.red_score ≥ s.config.mercy) then
    true
  else if 0 < s.config.first_to ∧
      (s.red_score ≥ s.config.first_to ∨ s.blue_score ≥ s.config.first_to) then
    true
  else
    false

/-- `update_game_over`. -/
def update_game_over (s : SrvState) : SrvState :=
  let time_gameover := s.config.time_intermission * 100
  let time_break := s.config.time_break * 100
  let old_game_over := s.game_over
  let s := { s with game_over := game_over_condition s }
  if s.game_over ∧ ¬old_game_over then
    { s with pause_timer := max s.pause_timer time_gameover }
  else if ¬s.game_over ∧ old_game_over then
    { s with pause_timer := max s.pause_timer time_break }
  else
    s

/-! ## Rule calls (`call_goal`, `call_offside`, `call_twoline_pass`,
`call_icing`) -/

/-- `call_goal` (`hqm_match_util.rs:200`).  The returned `HQMMatchEvent` is
appended to `match_events` (the caller pushes it immediately). -/
def call_goal (env : HQMEnv) (s : SrvState) (team : HQMTeam) (puck_index : Nat) :
    SrvState :=
  let time_break := s.config.time_break * 100
  let s :=
    match team with
    | .red => { s with red_score := s.red_score + 1 }
    | .blue => { s with blue_score := s.blue_score + 1 }
  let s := { s with next_faceoff_spot := .center }
  let scan_result : Option Nat × Option Nat × Nat × Option Nat × Option Nat :=
    match env.puck puck_index with
    | some this_puck =>
      match alist_get s.puck_touches puck_index with
      | some touches =>
        let last_touch := touches.head?.map (fun t => t.player_index)
        let r := goal_scan team none 0 none touches
        (r.1, r.2.1, this_puck.speed, r.2.2, last_touch)
      | none => (none, none, this_puck.speed, none, none)
    | none => (none, none, 0, none, none)
  let goal_scorer_index := scan_result.1
  let assist_index := scan_result.2.1
  let puck_speed_across_line := scan_result.2.2.1
  let puck_speed_from_stick := scan_result.2.2.2.1
  let last_touch := scan_result.2.2.2.2
  let s := add_msg s (HQMMsg.goalMessage team goal_scorer_index assist_index)
  let s := add_msg s
    (HQMMsg.goalScoredChat puck_speed_across_line puck_speed_from_stick s.config.use_mph)
  let s := if s.time < 1000 then add_msg s (HQMMsg.secondsLeft s.time) else s
  let s := { s with pause_timer := time_break, is_pause_goal := true }
  let s := update_game_over s
  let gamestep := s.game_step
  let s :=
    if s.config.goal_replay then
      let force_view :=
        match goal_scorer_index with
        | some x => some x
        | none => last_touch
      { s with
          start_next_replay :=
            some (max s.faceoff_game_step (gamestep - 600), gamestep + 200, force_view)
          pause_timer := max (s.pause_timer - 800) 400 }
    else s
  { s with
      match_events := s.match_events ++
        [HQMMatchEvent.goal team goal_scorer_index assist_index
          puck_speed_from_stick puck_speed_across_line s.time s.period] }

/-- `call_offside` (`hqm_match_util.rs:691`). -/
def call_offside (s : SrvState) (team : HQMTeam) (side : HQMRinkSide)
    (position : Option HQMPassPosition) (self_touch : Bool) : SrvState :=
  let time_break := s.config.time_break * 100
  let faceoff_spot :=
    if self_touch then
      match s.config.offside_line with
      | .offensiveBlue => HQMRinkFaceoffSpot.offside team.get_other_team side
      | .center => HQMRinkFaceoffSpot.center
    else
      match position with
      | some p =>
        if p.ple .reachedOwnBlue then HQMRinkFaceoffSpot.defensiveZone team side
        else if p.ple .reachedCenter then HQMRinkFaceoffSpot.offside team side
        else HQMRinkFaceoffSpot.center
      | none => HQMRinkFaceoffSpot.center
  let s := { s with
      next_faceoff_spot := faceoff_spot
      pause_timer := time_break
      offside_status := .offside team }
  add_msg s .offsideCalled

/-- `call_twoline_pass` (`hqm_match_util.rs:726`). -/
def call_twoline_pass (s : SrvState) (team : HQMTeam) (side : HQMRinkSide)
    (position : HQMPassPosition) : SrvState :=
  let time_break := s.config.time_break * 100
  let faceoff_spot :=
    if position.ple .reachedOwnBlue then HQMRinkFaceoffSpot.defensiveZone team side
    else if position.ple .reachedCenter then HQMRinkFaceoffSpot.offside team side
    else HQMRinkFaceoffSpot.center
  let s := { s with
      next_faceoff_spot := faceoff_spot
      pause_timer := time_break
      twoline_pass_status := .offside team }
  add_msg s .twoLineCalled

/-- `call_icing` (`hqm_match_util.rs:749`). -/
def call_icing (s : SrvState) (team : HQMTeam) (side : HQMRinkSide) : SrvState :=
  let time_break := s.config.time_break * 100
  let s := { s with
      next_faceoff_spot := HQMRinkFaceoffSpot.defensiveZone team side
      pause_timer := time_break
      icing_status := .icing team }
  add_msg s .icingCalled

/-! ## Event handlers -/

/-- `handle_puck_entered_net` (`hqm_match_util.rs:433`). -/
def handle_puck_entered_net (env : HQMEnv) (s : SrvState) (team : HQMTeam)
    (puck : Nat) : SrvState :=
  match s.offside_status with
  | .warning offside_team side position _ =>
    if offside_team = team then call_offside s team side position false
    else call_goal env s team puck
  | .offside _ => s
  | _ => call_goal env s team puck

/-- The icing block at the end of `handle_puck_touch`
(`hqm_match_util.rs:419-428`). -/
def handle_puck_touch_icing (s : SrvState) (player_index : Nat)
    (touching_team other_team : HQMTeam) : SrvState :=
  match s.icing_status with
  | .warning team side =>
    if touching_team ≠ team ∧ player_index ∉ s.started_as_goalie then
      call_icing s other_team side
    else
      add_msg { s with icing_status := .no } .icingWavedOff
  | _ => s

/-- The two-line-pass block of `handle_puck_touch`
(`hqm_match_util.rs:406-418`); on the non-enforcing branch control falls
through to the icing block. -/
def handle_puck_touch_twoline (s : SrvState) (player_index : Nat)
    (touching_team other_team : HQMTeam) : SrvState :=
  match s.twoline_pass_status with
  | .warning team side position i =>
    if team = touching_team ∧ player_index ∈ i then
      call_twoline_pass s touching_team side position
    else
      let s := add_msg { s with twoline_pass_status := .no } .twoLineWavedOff
      handle_puck_touch_icing s player_index touching_team other_team
  | _ => handle_puck_touch_icing s player_index touching_team other_team

/-- `handle_puck_touch` (`hqm_match_util.rs:367`). -/
def handle_puck_touch (env : HQMEnv) (s : SrvState) (player : Nat)
    (puck_index : Nat) : SrvState :=
  match env.resolve player with
  | some (player_index, touching_team) =>
    match env.puck puck_index with
    | some puck =>
      let touches := (alist_get s.puck_touches puck_index).getD []
      let s := { s with
          puck_touches := alist_insert s.puck_touches puck_index
            (add_touch puck touches player_index player touching_team s.time) }
      let side := if puck.left_half then HQMRinkSide.left else HQMRinkSide.right
      let s := { s with
          pass := some { team := touching_team, side := side,
                         from_pos := none, player := player_index } }
      let other_team := touching_team.get_other_team
      match s.offside_status with
      | .warning team side2 position i =>
        if team = touching_team then
          call_offside s touching_team side2 position (player_index == i)
        else handle_puck_touch_twoline s player_index touching_team other_team
      | _ => handle_puck_touch_twoline s player_index touching_team other_team
    | none => s
  | none => s

/-- `handle_puck_passed_goal_line` (`hqm_match_util.rs:451`). -/
def handle_puck_passed_goal_line (s : SrvState) (team : HQMTeam) : SrvState :=
  match s.pass with
  | some pass =>
    match pass.from_pos with
    | some transition =>
      if team = pass.team ∧ transition.ple .reachedCenter then
        match s.config.icing with
        | .touch =>
          add_msg { s with icing_status := .warning team pass.side } .icingWarning
        | .notouch => call_icing s team pass.side
        | .off => s
      else s
    | none => s
  | none => s

/-- `puck_into_offside_zone` (`hqm_match_util.rs:474`). -/
def puck_into_offside_zone (env : HQMEnv) (s : SrvState) (team : HQMTeam) :
    SrvState :=
  if s.offside_status = .inOffensiveZone team then s
  else
    match s.pass with
    | some pass =>
      if team = pass.team ∧
          has_players_in_offensive_zone env team (some pass.player) then
        match s.config.offside with
        | .delayed =>
          add_msg
            { s with offside_status :=
                .warning team pass.side pass.from_pos pass.player }
            .offsideWarning
        | .immediate => call_offside s team pass.side pass.from_pos false
        | .off => { s with offside_status := .inOffensiveZone team }
      else { s with offside_status := .inOffensiveZone team }
    | none => { s with offside_status := .inOffensiveZone team }

/-- `check_twoline_pass` (`hqm_match_util.rs:568`). -/
def check_twoline_pass (env : HQMEnv) (s : SrvState) (team : HQMTeam)
    (side : HQMRinkSide) (from_pos : HQMPassPosition) (pass_player : Nat)
    (is_offensive_line : Bool) : SrvState :=
  let players_past_line := env.players.filter (fun pi =>
    (pi != pass_player) && env.pastLine pi team is_offensive_line)
  if players_past_line.isEmpty then s
  else
    add_msg
      { s with twoline_pass_status := .warning team side from_pos players_past_line }
      .twoLineWarning

/-- The opening statement shared by `handle_puck_entered_offensive_half` and
`handle_puck_entered_offensive_zone`: when no offside has been called and the
configured offside line matches, the puck enters the offside zone. -/
def offside_zone_entry (env : HQMEnv) (s : SrvState) (team : HQMTeam)
    (line : HQMOffsideLineConfiguration) : SrvState :=
  if ¬s.offside_status.isOffside ∧ s.config.offside_line = line then
    puck_into_offside_zone env s team
  else s

/-- The middle statement of `handle_puck_entered_offensive_half`: emit
"Offside waved off" when a warning for the other team is pending. -/
def offside_waveoff_message (s : SrvState) (team : HQMTeam) : SrvState :=
  match s.offside_status with
  | .warning warning_team _ _ _ =>
    if warning_team ≠ team then add_msg s .offsideWavedOff else s
  | _ => s

/-- The closing two-line-pass check of `handle_puck_entered_offensive_half`
(regular two-line pass over the centre line). -/
def twoline_check_regular (env : HQMEnv) (s : SrvState) (team : HQMTeam) :
    SrvState :=
  match s.pass with
  | some pass =>
    match pass.from_pos with
    | some from_pos =>
      if s.twoline_pass_status = .no ∧ pass.team = team then
        let is_regular_twoline_pass_active :=
          s.config.twoline_pass = .double ∨ s.config.twoline_pass = .on
        if from_pos.ple .reachedOwnBlue ∧ is_regular_twoline_pass_active then
          check_twoline_pass env s team pass.side from_pos pass.player false
        else s
      else s
    | none => s
  | none => s

/-- The closing two-line-pass check of `handle_puck_entered_offensive_zone`
(forward and three-line variants over the offensive blue line). -/
def twoline_check_offensive (env : HQMEnv) (s : SrvState) (team : HQMTeam) :
    SrvState :=
  match s.pass with
  | some pass =>
    match pass.from_pos with
    | some from_pos =>
      if s.twoline_pass_status = .no ∧ pass.team = team then
        let is_forward_twoline_pass_active :=
          s.config.twoline_pass = .double ∨ s.config.twoline_pass = .forward
        let is_threeline_pass_active := s.config.twoline_pass = .threeline
        if (from_pos.ple .reachedCenter ∧ is_forward_twoline_pass_active) ∨
            (from_pos.ple .reachedOwnBlue ∧ is_threeline_pass_active) then
          check_twoline_pass env s team pass.side from_pos pass.player true
        else s
      else s
    | none => s
  | none => s

/-- `handle_puck_entered_offensive_half` (`hqm_match_util.rs:509`), as the
sequence of its three statements. -/
def handle_puck_entered_offensive_half (env : HQMEnv) (s : SrvState)
    (team : HQMTeam) : SrvState :=
  twoline_check_regular env
    (offside_waveoff_message (offside_zone_entry env s team .center) team) team

/-- `handle_puck_entered_offensive_zone` (`hqm_match_util.rs:540`), as the
sequence of its two statements. -/
def handle_puck_entered_offensive_zone (env : HQMEnv) (s : SrvState)
    (team : HQMTeam) : SrvState :=
  twoline_check_offensive env (offside_zone_entry env s team .offensiveBlue)
    team

/-- `handle_puck_passed_defensive_line` (`hqm_match_util.rs:604`). -/
def handle_puck_passed_defensive_line (s : SrvState) (team : HQMTeam) :
    SrvState :=
  if ¬s.offside_status.isOffside ∧ s.config.offside_line = .offensiveBlue then
    let s :=
      match s.offside_status with
      | .warning t _ _ _ =>
        if team.get_other_team = t then add_msg s .offsideWavedOff else s
      | _ => s
    { s with offside_status := .neutral }
  else s

/-- `update_pass` (`hqm_match_util.rs:619`). -/
def update_pass (s : SrvState) (team : HQMTeam) (p : HQMPassPosition) :
    SrvState :=
  match s.pass with
  | some pass =>
    if pass.team = team ∧ pass.from_pos = none then
      { s with pass := some { pass with from_pos := some p } }
    else s
  | none => s

/-- `check_wave_off_twoline` (`hqm_match_util.rs:627`). -/
def check_wave_off_twoline (s : SrvState) (team : HQMTeam) : SrvState :=
  match s.twoline_pass_status with
  | .warning warning_team _ _ _ =>
    if team ≠ warning_team then
      add_msg { s with twoline_pass_status := .no } .twoLineWavedOff
    else s
  | _ => s

/-! ## Event loop (`handle_events`, `hqm_match_util.rs:638`) -/

/-- The intra-tick short-circuit condition checked after every event. -/
def short_circuit (s : SrvState) : Bool :=
  s.pause_timer > 0 || s.time == 0 || s.game_over || s.period == 0

/-- One arm of the `match` in `handle_events`. -/
def handle_sim_event (env : HQMEnv) (s : SrvState) :
    HQMSimulationEvent → SrvState
  | .puckEnteredNet team puck => handle_puck_entered_net env s team puck
  | .puckTouch player puck => handle_puck_touch env s player puck
  | .puckReachedDefensiveLine team _ =>
      update_pass (check_wave_off_twoline s team) team .reachedOwnBlue
  | .puckPassedDefensiveLine team _ =>
      handle_puck_passed_defensive_line (update_pass s team .passedOwnBlue) team
  | .puckReachedCenterLine team _ =>
      update_pass (check_wave_off_twoline s team) team .reachedCenter
  | .puckPassedCenterLine team _ =>
      handle_puck_entered_offensive_half env
        (update_pass s team .passedCenter) team
  | .puckReachedOffensiveZone team _ => update_pass s team .reachedOffensive
  | .puckEnteredOffensiveZone team _ =>
      handle_puck_entered_offensive_zone env
        (update_pass s team .passedOffensive) team
  | .puckPassedGoalLine team _ => handle_puck_passed_goal_line s team
  | .ignored => s

/-- `handle_events`: process events strictly in order; after each event,
return early if the short-circuit condition holds. -/
def handle_events (env : HQMEnv) (s : SrvState) :
    List HQMSimulationEvent → SrvState
  | [] => s
  | e :: rest =>
    let s := handle_sim_event env s e
    if short_circuit s then s else handle_events env s rest

/-! ## End-of-period events (`handle_events_end_of_period`,
`hqm_match_util.rs:345`) -/

def handle_events_end_of_period_step (s : SrvState) (e : HQMSimulationEvent) :
    SrvState :=
  match e with
  | .puckEnteredNet _ _ =>
    let time := s.game_step - s.step_where_period_ended
    if time ≤ 300 ∧ ¬s.too_late_printed_this_period then
      add_msg { s with too_late_printed_this_period := true } (.tooLate time)
    else s
  | _ => s

def handle_events_end_of_period (s : SrvState)
    (events : List HQMSimulationEvent) : SrvState :=
  events.foldl handle_events_end_of_period_step s

/-! ## Faceoff position assignment (`setup_position`,
`hqm_match_util.rs:1101`) -/

def ALLOWED_POSITIONS : List String :=
  ["C", "LW", "RW", "LD", "RD", "G", "LM", "RM", "LLM", "RRM", "LLD", "RRD",
   "CM", "CD", "LW2", "RW2", "LLW", "RRW"]

/-- The faceoff positions map (shared between the red and blue calls of
`setup_position` in `get_faceoff_positions`). -/
abbrev PosMap := List (Nat × (HQMTeam × String))

/-- Round 1 of `setup_position`: give each player their preferred position if
still available, removing it from the pool. -/
def setup_round1 (team : HQMTeam) :
    List (Nat × Option String) → List String → PosMap → List String × PosMap
  | [], avail, m => (avail, m)
  | (pid, pref) :: rest, avail, m =>
    match pref with
    | some p =>
      if p ∈ avail then
        setup_round1 team rest (avail.erase p) (alist_insert m pid (team, p))
      else setup_round1 team rest avail m
    | none => setup_round1 team rest avail m

/-- Round 2 of `setup_position`: players without an assignment get `C` if it
is still free, else the first remaining pool position, else (pool exhausted)
their preferred position or `C`. -/
def setup_round2 (team : HQMTeam) :
    List (Nat × Option String) → List String → PosMap → List String × PosMap
  | [], avail, m => (avail, m)
  | (pid, pref) :: rest, avail, m =>
    if alist_contains m pid then setup_round2 team rest avail m
    else if "C" ∈ avail then
      setup_round2 team rest (avail.erase "C") (alist_insert m pid (team, "C"))
    else
      match avail with
      | a :: arest => setup_round2 team rest arest (alist_insert m pid (team, a))
      | [] => setup_round2 team rest [] (alist_insert m pid (team, pref.getD "C"))

/-- The `change_index` search of the post-pass of `setup_position`: the first
player (in roster order) whose assigned position is not `G`; the fallback
(set on the first iteration, never overwritten except by a break) is the
first player. -/
def setup_change_index (m : PosMap) :
    List (Nat × Option String) → Option Nat → Option Nat
  | [], ci => ci
  | (pid, _) :: rest, ci =>
    let ci2 := match ci with | Option.none => some pid | some x => some x
    match alist_get m pid with
    | some (_, pos) =>
      if pos ≠ "G" then some pid else setup_change_index m rest ci2
    | none => setup_change_index m rest ci2

/-- `setup_position`: round 1, round 2, then the post-pass that reassigns `C`
if it is still in the pool. -/
def setup_position (m : PosMap) (players : List (Nat × Option String))
    (team : HQMTeam) : PosMap :=
  let r1 := setup_round1 team players ALLOWED_POSITIONS m
  let r2 := setup_round2 team players r1.1 r1.2
  if "C" ∈ r2.1 then
    match setup_change_index r2.2 players none with
    | some change_index => alist_insert r2.2 change_index (team, "C")
    | none => r2.2
  else r2.2

/-- `get_faceoff_positions` (`hqm_match_util.rs:1030`): red roster first, then
blue, into the same map. -/
def get_faceoff_positions (env : HQMEnv) : PosMap :=
  let m := setup_position [] (env.roster .red) .red
  setup_position m (env.roster .blue) .blue

/-! ## Faceoffs, new games, the clock -/

/-- `do_faceoff` (`hqm_match_util.rs:121`).  Spawning skaters and the puck,
and the spot geometry, belong to the external world; the state effects are
the ledger/rule-machine resets, `started_as_goalie`, and the step stamp.
The initial offside status tests whether the faceoff puck position is past
each team's offensive line (an environment predicate on the spot). -/
def do_faceoff (env : HQMEnv) (s : SrvState) : SrvState :=
  let positions := get_faceoff_positions env
  let s := { s with puck_touches := [] }
  let started := (positions.filter (fun pr => pr.2.2 == "G")).map (fun pr => pr.1)
  { s with
      started_as_goalie := started
      icing_status := .no
      offside_status :=
        if env.pointPastMiddle .red s.next_faceoff_spot then
          .inOffensiveZone .red
        else if env.pointPastMiddle .blue s.next_faceoff_spot then
          .inOffensiveZone .blue
        else .neutral
      twoline_pass_status := .no
      pass := none
      faceoff_game_step := s.game_step }

/-- `create_game` (`hqm_match_util.rs:870`) together with the server's
`new_game`.  Modelled from the spec: `HQMGame::new` and the new server's
`new_game` are not in the source tree (the `hqm_server.rs` present is an
older edition), so the game-side reset (fresh game id, zero scores, period 0,
`game_over` cleared, warmup clock) follows the spec's new-game/tick-clock
description; the match-side resets are taken directly from `create_game`. -/
def new_game (s : SrvState) : SrvState :=
  { s with
      paused := false
      pause_timer := 0
      next_faceoff_spot := .center
      icing_status := .no
      offside_status := .neutral
      twoline_pass_status := .no
      start_next_replay := none
      red_score := 0
      blue_score := 0
      period := 0
      game_over := false
      time := s.config.time_warmup * 100
      game_id := s.game_id + 1 }

/-- `update_clock` (`hqm_match_util.rs:820`). -/
def update_clock (env : HQMEnv) (s : SrvState) : SrvState :=
  let period_length := s.config.time_period * 100
  let intermission_time := s.config.time_intermission * 100
  let s :=
    if ¬s.paused then
      if s.pause_timer > 0 then
        let s := { s with pause_timer := s.pause_timer - 1 }
        if s.pause_timer = 0 then
          let s := { s with is_pause_goal := false }
          if s.game_over then new_game s
          else
            let s := if s.time = 0 then { s with time := period_length } else s
            do_faceoff env s
        else s
      else
        let s := { s with time := s.time - 1 }
        if s.time = 0 then
          let s := { s with
              period := s.period + 1
              pause_timer := intermission_time
              is_pause_goal := false
              step_where_period_ended := s.game_step
              too_late_printed_this_period := false
              next_faceoff_spot := .center }
          update_game_over s
        else s
    else s
  { s with goal_message_timer := if s.is_pause_goal then s.pause_timer else 0 }

/-- The queued-replay check at the end of `after_tick`
(`hqm_match_util.rs:810-816`). -/
def replay_check (s : SrvState) : SrvState :=
  match s.start_next_replay with
  | some (start_replay, end_replay, force_view) =>
    if end_replay ≤ s.game_step then
      add_msg
        { s with
            replay_queue :=
              s.replay_queue ++ [(start_replay, end_replay, force_view)]
            start_next_replay := none }
        .goalReplay
    else s
  | none => s

/-- `after_tick` (`hqm_match_util.rs:758`).  `match_events` is the `Vec`
created at the top of the function and returned at the end. -/
def after_tick (env : HQMEnv) (s : SrvState)
    (events : List HQMSimulationEvent) : SrvState :=
  let s := { s with match_events := [] }
  let s :=
    if s.time = 0 ∧ s.period > 1 then
      handle_events_end_of_period s events
    else if s.pause_timer > 0 ∨ s.time = 0 ∨ s.game_over ∨ s.period = 0 ∨
        s.paused then
      s
    else
      let s := handle_events env s events
      let s :=
        match s.offside_status with
        | .warning team _ _ _ =>
          if ¬has_players_in_offensive_zone env team none then
            add_msg { s with offside_status := .inOffensiveZone team }
              .offsideWavedOff
          else s
        | _ => s
      let rules_state :=
        if s.offside_status.isOffside || s.twoline_pass_status.isOffside then
          HQMRulesState.offside
        else if s.icing_status.isIcing then
          HQMRulesState.icing
        else
          let icing_warning := s.icing_status.isWarning
          let offside_warning :=
            s.offside_status.isWarning || s.twoline_pass_status.isWarning
          HQMRulesState.regular offside_warning icing_warning
      { s with rules_state := rules_state }
  replay_check (update_clock env s)

/-! ## Session registry of the (older) `hqm_server.rs`: player removal

Only the state touched by `remove_player` / `remove_inactive_players` is
embedded: the slot vector of optional sessions, the join-enabled flag, the
world object slots (as an occupancy predicate), and the message queues. -/

/-- The old server's team enum (it includes `Spec`). -/
inductive SrvTeam where
  | red
  | blue
  | spec
deriving DecidableEq, Repr

/-- `HQMMessage` constructors reached from player removal. -/
inductive SrvMsg where
  | playerUpdate (player_name : String) (team : SrvTeam) (player_index : Nat)
      (object_index : Option Nat) (in_server : Bool)
  | chat (player_index : Option Nat) (message : String)
deriving DecidableEq, Repr

/-- `HQMConnectedPlayer`, restricted to the fields read or written by the
removal paths. -/
structure HQMConnectedPlayer where
  player_name : String
  skater : Option Nat
  is_admin : Bool
  inactivity : Nat
  messages : List SrvMsg
deriving DecidableEq, Repr

/-- The old server state: slot vector, join flag, world-object occupancy,
persistent message log. -/
structure ServerS where
  players : List (Option HQMConnectedPlayer)
  allow_join : Bool
  objects : Nat → Bool
  global_messages : List SrvMsg

/-- `add_global_message` (`hqm_server.rs:610`). -/
def add_global_message (s : ServerS) (m : SrvMsg) (persistent : Bool) :
    ServerS :=
  let s :=
    if persistent then { s with global_messages := s.global_messages ++ [m] }
    else s
  { s with
      players := s.players.map (fun op =>
        op.map (fun p => { p with messages := p.messages ++ [m] })) }

/-- `add_server_chat_message` (`hqm_server.rs:589`). -/
def add_server_chat_message (s : ServerS) (message : String) : ServerS :=
  add_global_message s (SrvMsg.chat none message) false

/-- `remove_player` (`hqm_server.rs:530`). -/
def remove_player (s : ServerS) (player_index : Nat) : ServerS :=
  match s.players.get? player_index with
  | some (some player) =>
    let update := SrvMsg.playerUpdate player.player_name .spec player_index
      none false
    let s :=
      match player.skater with
      | some object_index =>
        { s with objects := fun j => if j = object_index then false else s.objects j }
      | none => s
    let admin_check := player.is_admin
    let s := add_global_message s update true
    let s := { s with players := s.players.set player_index none }
    if admin_check then
      let admin_found := s.players.any (fun op =>
        match op with
        | some player => player.is_admin
        | none => false)
      if ¬admin_found then { s with allow_join := true } else s
    else s
  | _ => s

/-- One index of the loop of `remove_inactive_players`
(`hqm_server.rs:638`): bump the inactivity counter, and at 500 ticks remove
the player and broadcast the timeout chat line. -/
def remove_inactive_step (s : ServerS) (i : Nat) : ServerS :=
  match s.players.get? i with
  | some (some p) =>
    let p2 := { p with inactivity := p.inactivity + 1 }
    let s := { s with players := s.players.set i (some p2) }
    if p2.inactivity ≥ 500 then
      let player_name := p2.player_name
      let s := remove_player s i
      add_server_chat_message s (player_name ++ " timed out")
    else s
  | _ => s

/-- `remove_inactive_players`. -/
def remove_inactive_players (s : ServerS) : ServerS :=
  (List.range s.players.length).foldl remove_inactive_step s

/-! ## Concrete fixtures for witnesses and counterexamples -/

/-- An environment with no players and no objects. -/
def env0 : HQMEnv :=
  { players := []
    resolve := fun _ => none
    puck := fun _ => none
    pastLine := fun _ _ _ => false
    pointPastMiddle := fun _ _ => false
    roster := fun _ => [] }

/-- A default configuration. -/
def cfg0 : HQMMatchConfiguration :=
  { time_period := 300
    time_warmup := 300
    time_break := 5
    time_intermission := 20
    mercy := 0
    first_to := 0
    periods := 3
    offside := .delayed
    icing := .touch
    offside_line := .offensiveBlue
    twoline_pass := .off
    use_mph := false
    goal_replay := false }

/-- A mid-game baseline state: clock running, no calls pending. -/
def sBase : SrvState :=
  { config := cfg0
    red_score := 0
    blue_score := 0
    period := 1
    time := 20000
    goal_message_timer := 0
    game_over := false
    rules_state := .regular false false
    game_step := 5000
    game_id := 1
    messages := []
    match_events := []
    replay_queue := []
    paused := false
    pause_timer := 0
    is_pause_goal := false
    next_faceoff_spot := .center
    icing_status := .no
    offside_status := .neutral
    twoline_pass_status := .no
    pass := none
    started_as_goalie := []
    faceoff_game_step := 4000
    step_where_period_ended := 0
    too_late_printed_this_period := false
    start_next_replay := none
    puck_touches := [] }

/-- Red team's score / blue team's score, as selected by a team value. -/
def team_score (s : SrvState) : HQMTeam → Nat
  | .red => s.red_score
  | .blue => s.blue_score

/-! ## Remaining specification-side definitions and proof fixtures -/

/-- The `puck_speed_from_stick` value: the speed stored on the scorer's entry
(set when the scorer is first found, not refreshed). -/
def stick_spec (team : HQMTeam) (l : List HQMPuckTouch) : Option Nat :=
  (after_scorer team l).map (fun pr => pr.1.puck_speed)

/-- The post-pass target as worded by the claim: the first player in roster
order whose assigned position is not `G`, falling back to the first player. -/
def change_index_spec (m : PosMap) (players : List (Nat × Option String)) :
    Option Nat :=
  match players.find? (fun pp =>
      match alist_get m pp.1 with
      | some (_, pos) => pos != "G"
      | none => false) with
  | some pp => some pp.1
  | none => players.head?.map (fun pp => pp.1)

/-- The game-over coherence invariant: whenever `game_over` is set, the
game-over condition of `update_game_over` holds of the current scores and
period.  It is established by `new_game` and preserved by `after_tick`. -/
def game_over_inv (s : SrvState) : Prop :=
  s.game_over = true → game_over_condition s = true

/-- The fields that the game-over condition and the monotonicity argument
depend on; most handlers leave all of them unchanged. -/
def CoreEq (s s' : SrvState) : Prop :=
  s'.config = s.config ∧ s'.red_score = s.red_score ∧
  s'.blue_score = s.blue_score ∧ s'.period = s.period ∧
  s'.game_over = s.game_over ∧ s'.game_id = s.game_id

/-- Environment resolving skater object 9 to player 5 on blue, with puck 0
present. -/
def envC3 : HQMEnv :=
  { env0 with
      resolve := fun oi => if oi = 9 then some (5, .blue) else none
      puck := fun pk => if pk = 0 then some ⟨0, 0, true⟩ else none }

/-- Baseline state with a pending icing warning against red on the left
side. -/
def sC3 : SrvState := { sBase with icing_status := .warning .red .left }

/-- Baseline state with a pending two-line-pass warning against red. -/
def sC8 : SrvState :=
  { sBase with twoline_pass_status := .warning .red .left .reachedOwnBlue [7] }

/-- Baseline state with a pending offside warning against red. -/
def sC1 : SrvState :=
  { sBase with offside_status := .warning .red .left (some .reachedCenter) 3 }

/-- Baseline state still in warmup (period 0), for the short-circuit
witness. -/
def sC5 : SrvState := { sBase with period := 0 }

/-- Mercy-rule configuration and a state one goal short of it. -/
def sC6 : SrvState :=
  { sBase with config := { cfg0 with mercy := 2 }, red_score := 2 }

/-- Touch deque for the assist-window scenario: red player 2 (the shooter,
game clock 29200) in front, red player 1 (game clock 30000, i.e. 800
centiseconds earlier) behind. -/
def touchesC2 : List HQMPuckTouch :=
  [{ player_index := 2, skater_index := 12, team := .red, puck_pos := 0,
     puck_speed := 9, first_time := 29200, last_time := 29200 },
   { player_index := 1, skater_index := 11, team := .red, puck_pos := 0,
     puck_speed := 7, first_time := 30000, last_time := 30000 }]

/-- Environment with puck 0 present at speed token 42. -/
def envC2 : HQMEnv :=
  { env0 with puck := fun pk => if pk = 0 then some ⟨0, 42, true⟩ else none }

/-- Baseline state carrying the assist-window touch deque on puck 0. -/
def sC2 : SrvState := { sBase with puck_touches := [(0, touchesC2)] }

/-- A single admin player about to time out. -/
def pAdmin : HQMConnectedPlayer :=
  { player_name := "adm"
    skater := none
    is_admin := true
    inactivity := 499
    messages := [] }

/-- Old-server state whose only connected player is the admin. -/
def sSrv : ServerS :=
  { players := [some pAdmin]
    allow_join := false
    objects := fun _ => false
    global_messages := [] }

/-! # Theorems -/

/-! ## Association-list lemmas -/

theorem alist_get_insert_same {α : Type} (m : List (Nat × α)) (k : Nat) (v : α) :
    alist_get (alist_insert m k v) k = some v := by
  induction m with
  | nil => simp [alist_insert, alist_get]
  | cons hd tl ih =>
    obtain ⟨k', v'⟩ := hd
    by_cases h : k' = k
    · simp [alist_insert, alist_get, h]
    · simp [alist_insert, alist_get, h, ih]

theorem alist_get_insert_ne {α : Type} (m : List (Nat × α)) (k k' : Nat) (v : α)
    (h : k ≠ k') : alist_get (alist_insert m k v) k' = alist_get m k' := by
  induction m with
  | nil => simp [alist_insert, alist_get, h]
  | cons hd tl ih =>
    obtain ⟨k0, v0⟩ := hd
    by_cases h0 : k0 = k
    · subst h0
      simp [alist_insert, alist_get, h]
    · simp only [alist_insert, if_neg h0]
      by_cases h1 : k0 = k'
      · simp [alist_get, h1]
      · simp [alist_get, h1, ih]

/-! ## C4: the touch-ledger invariant -/

/-- C4: `add_touch` preserves the touch-ledger invariant for a puck's deque:
length at most 16, newest entry at the front, no two adjacent entries with
the same (player, team) pair; if the front entry matches the toucher it is
updated in place (position, speed, `last_time`), otherwise the deque is
truncated to 15 entries and a fresh entry is pushed to the front. -/
theorem add_touch_preserves_ledger (puck : HQMPuckData)
    (l : List HQMPuckTouch) (pi si : Nat) (team : HQMTeam) (time : Nat)
    (h : TouchInv l) :
    TouchInv (add_touch puck l pi si team time) ∧
    (∃ hd tl, add_touch puck l pi si team time = hd :: tl ∧
       hd.player_index = pi ∧ hd.team = team ∧ hd.last_time = time) ∧
    (∀ mr rest, l = mr :: rest → mr.player_index = pi → mr.team = team →
       add_touch puck l pi si team time =
         { mr with puck_pos := puck.pos, last_time := time,
                   puck_speed := puck.speed } :: rest) ∧
    ((∀ mr rest, l = mr :: rest → ¬(mr.player_index = pi ∧ mr.team = team)) →
       add_touch puck l pi si team time =
         { player_index := pi, skater_index := si, team := team,
           puck_pos := puck.pos, puck_speed := puck.speed,
           first_time := time, last_time := time } :: l.take 15) := by
  match l with
  | [] =>
    refine ⟨⟨by simp [add_touch], by simp [add_touch]⟩, ?_, ?_, ?_⟩
    · exact ⟨_, _, rfl, rfl, rfl, rfl⟩
    · intro mr rest hmr
      exact absurd hmr (by simp)
    · intro _
      simp [add_touch]
  | mr :: rest =>
    by_cases hm : mr.player_index = pi ∧ mr.team = team
    · have he : add_touch puck (mr :: rest) pi si team time =
          { mr with puck_pos := puck.pos, last_time := time,
                    puck_speed := puck.speed } :: rest := by
        simp [add_touch, hm]
      refine ⟨⟨?_, ?_⟩, ?_, ?_, ?_⟩
      · rw [he]
        simpa using h.1
      · rw [he]
        have hc := h.2
        rw [List.chain'_cons'] at hc ⊢
        refine ⟨?_, hc.2⟩
        intro y hy
        have := hc.1 y hy
        simp only [TouchDistinct] at this ⊢
        simpa using this
      · exact ⟨_, _, he, hm.1, hm.2, rfl⟩
      · intro mr0 rest0 heq hp ht
        obtain ⟨h1, h2⟩ := List.cons.injEq mr0 rest0 mr rest ▸ heq.symm
        subst h1; subst h2
        exact he
      · intro hall
        exact absurd hm (hall mr rest rfl)
    · have he : add_touch puck (mr :: rest) pi si team time =
          { player_index := pi, skater_index := si, team := team,
            puck_pos := puck.pos, puck_speed := puck.speed,
            first_time := time, last_time := time } :: (mr :: rest).take 15 := by
        simp [add_touch, hm]
      refine ⟨⟨?_, ?_⟩, ?_, ?_, ?_⟩
      · rw [he]
        have : ((mr :: rest).take 15).length ≤ 15 := by
          simp
        simp only [List.length_cons]
        omega
      · rw [he]
        rw [List.chain'_cons']
        constructor
        · intro y hy
          rw [show (mr :: rest).take 15 = mr :: rest.take 14 from rfl] at hy
          simp only [List.head?_cons, Option.mem_def, Option.some.injEq] at hy
          subst hy
          simp only [TouchDistinct]
          intro hc
          exact hm ⟨hc.1.symm, hc.2.symm⟩
        · exact h.2.take 15
      · exact ⟨_, _, he, rfl, rfl, rfl⟩
      · intro mr0 rest0 heq hp ht
        obtain ⟨h1, h2⟩ := List.cons.injEq mr0 rest0 mr rest ▸ heq.symm
        subst h1; subst h2
        exact absurd ⟨hp, ht⟩ hm
      · intro _
        exact he

/-- Witness for C4 at a concrete input: the empty ledger satisfies the
invariant and a first touch preserves it. -/
theorem add_touch_preserves_ledger_witness :
    TouchInv (add_touch ⟨0, 0, true⟩ [] 1 2 .red 100) :=
  (add_touch_preserves_ledger ⟨0, 0, true⟩ [] 1 2 .red 100
    ⟨by simp, List.chain'_nil⟩).1

/-! ## C2: goal and assist attribution -/

theorem goal_scan_some (team : HQMTeam) (g : Nat) (sp : Option Nat)
    (l : List HQMPuckTouch) : ∀ gft : Nat,
    goal_scan team (some g) gft sp l = (some g, assist_walk team g gft l, sp) := by
  induction l with
  | nil => intro gft; simp [goal_scan, assist_walk]
  | cons t rest ih =>
    intro gft
    simp only [goal_scan, assist_walk]
    by_cases h1 : t.team = team
    · by_cases h2 : t.player_index = g
      · simp [h1, h2, ih]
      · simp [h1, h2]
    · simp [h1, ih]

theorem goal_scan_none (team : HQMTeam) (l : List HQMPuckTouch) :
    goal_scan team none 0 none l =
      (scorer_spec team l, assist_spec team l, stick_spec team l) := by
  induction l with
  | nil => simp [goal_scan, scorer_spec, assist_spec, stick_spec, after_scorer]
  | cons t rest ih =>
    by_cases h1 : t.team = team
    · simp only [goal_scan, h1, if_true]
      rw [goal_scan_some]
      simp [scorer_spec, assist_spec, stick_spec, after_scorer, h1]
    · simp only [goal_scan, h1, if_false]
      rw [ih]
      simp [scorer_spec, assist_spec, stick_spec, after_scorer, h1]

theorem update_game_over_untouched (s : SrvState) :
    (update_game_over s).match_events = s.match_events ∧
    (update_game_over s).time = s.time ∧
    (update_game_over s).period = s.period ∧
    (update_game_over s).red_score = s.red_score ∧
    (update_game_over s).blue_score = s.blue_score ∧
    (update_game_over s).config = s.config ∧
    (update_game_over s).game_id = s.game_id ∧
    (update_game_over s).messages = s.messages ∧
    (update_game_over s).puck_touches = s.puck_touches := by
  simp only [update_game_over]
  split_ifs <;> simp

/-- C2: in `call_goal` for scoring team `team`, scanning the touch deque
front-to-back (newest first), the goal scorer is the player of the first
entry with that team; the assist is the player of the next entry with that
team and a distinct player, awarded if and only if that entry's `last_time`
minus the scorer's (possibly refreshed) `first_time` is at most 1000
centiseconds; scorer entries met again during the scan only refresh the
scorer's `first_time` and do not end the scan.  (`scorer_spec`,
`assist_walk`/`assist_spec` and `stick_spec` restate the claim wording; the
first conjunct ties them to the match event emitted by `call_goal`.) -/
theorem call_goal_attribution (env : HQMEnv) (s : SrvState) (team : HQMTeam)
    (pk : Nat) (pd : HQMPuckData) (touches : List HQMPuckTouch)
    (hp : env.puck pk = some pd)
    (ht : alist_get s.puck_touches pk = some touches) :
    (call_goal env s team pk).match_events = s.match_events ++
      [HQMMatchEvent.goal team (scorer_spec team touches)
        (assist_spec team touches) (stick_spec team touches) pd.speed
        s.time s.period] ∧
    (∀ l : List HQMPuckTouch, goal_scan team none 0 none l =
      (scorer_spec team l, assist_spec team l, stick_spec team l)) := by
  refine ⟨?_, fun l => goal_scan_none team l⟩
  cases team <;>
    simp only [call_goal, hp, ht, goal_scan_none, add_msg] <;>
    split_ifs <;>
    simp [update_game_over_untouched]

/-- Witness for C2: the assist-window scenario of the spec (red player 1
touches, red player 2 touches 800 centiseconds of game clock later and
scores; diff 800 ≤ 1000 so player 1 gets the assist). -/
theorem call_goal_attribution_witness :
    (call_goal envC2 sC2 .red 0).match_events =
      sC2.match_events ++
        [HQMMatchEvent.goal .red (some 2) (some 1) (some 9) 42 20000 1] := by
  have h := (call_goal_attribution envC2 sC2 .red 0 ⟨0, 42, true⟩ touchesC2
    rfl rfl).1
  rw [h]
  rfl

/-! ## C6: game-over evaluation -/

theorem update_game_over_game_over (s : SrvState) :
    (update_game_over s).game_over = game_over_condition s := by
  simp only [update_game_over]
  split_ifs <;> rfl

/-- C6: `update_game_over` sets `game_over` to true if and only if
(period > configured periods and the scores differ) or (mercy > 0 and the
absolute score difference is at least mercy) or (first_to > 0 and either
score is at least first_to); on the false-to-true transition `pause_timer`
is raised to at least the intermission length in ticks, and on the
true-to-false transition to at least the break length in ticks. -/
theorem update_game_over_spec (s : SrvState) :
    ((update_game_over s).game_over = true ↔
      (s.config.periods < s.period ∧ s.red_score ≠ s.blue_score) ∨
      (0 < s.config.mercy ∧
        s.config.mercy ≤
          max (s.red_score - s.blue_score) (s.blue_score - s.red_score)) ∨
      (0 < s.config.first_to ∧
        (s.config.first_to ≤ s.red_score ∨ s.config.first_to ≤ s.blue_score))) ∧
    (s.game_over = false → (update_game_over s).game_over = true →
      s.pause_timer ≤ (update_game_over s).pause_timer ∧
      s.config.time_intermission * 100 ≤ (update_game_over s).pause_timer) ∧
    (s.game_over = true → (update_game_over s).game_over = false →
      s.pause_timer ≤ (update_game_over s).pause_timer ∧
      s.config.time_break * 100 ≤ (update_game_over s).pause_timer) := by
  have hgo := update_game_over_game_over s
  refine ⟨?_, ?_, ?_⟩
  · rw [hgo]
    unfold game_over_condition
    split_ifs with h1 h2 h3 <;> simp <;> omega
  · intro hold hnew
    rw [hgo] at hnew
    have hpt : (update_game_over s).pause_timer =
        max s.pause_timer (s.config.time_intermission * 100) := by
      simp only [update_game_over]
      simp [hnew, hold]
    rw [hpt]
    omega
  · intro hold hnew
    rw [hgo] at hnew
    have hpt : (update_game_over s).pause_timer =
        max s.pause_timer (s.config.time_break * 100) := by
      simp only [update_game_over]
      simp [hnew, hold]
    rw [hpt]
    omega

/-- Witness for C6: with mercy = 2 and a 2-0 score, the game ends and the
pause timer is raised to the intermission length. -/
theorem update_game_over_spec_witness :
    (update_game_over sC6).game_over = true ∧
    sC6.config.time_intermission * 100 ≤ (update_game_over sC6).pause_timer := by
  have h := update_game_over_spec sC6
  have hg : (update_game_over sC6).game_over = true := h.1.mpr (by decide)
  exact ⟨hg, (h.2.1 rfl hg).2⟩

/-! ## C5: event ordering and the intra-tick short circuit -/

/-- C5: `handle_events` processes the tick's simulation events strictly in
the order emitted, and after each single event checks the short-circuit
condition (`pause_timer > 0`, game time 0, `game_over`, or period 0); as
soon as it holds, all remaining events of the tick are discarded
unprocessed. -/
theorem handle_events_short_circuit (env : HQMEnv) :
    (∀ (s : SrvState) (e : HQMSimulationEvent) (rest : List HQMSimulationEvent),
       handle_events env s (e :: rest) =
         (if short_circuit (handle_sim_event env s e) then
            handle_sim_event env s e
          else handle_events env (handle_sim_event env s e) rest)) ∧
    (∀ (s : SrvState) (l rest : List HQMSimulationEvent), l ≠ [] →
       short_circuit (handle_events env s l) = true →
       handle_events env s (l ++ rest) = handle_events env s l) := by
  constructor
  · intro s e rest
    rfl
  · intro s l
    induction l generalizing s with
    | nil => intro rest h _; exact absurd rfl h
    | cons e tl ih =>
      intro rest _ hsc
      by_cases hstop : short_circuit (handle_sim_event env s e) = true
      · simp [handle_events, hstop]
      · have hb : short_circuit (handle_sim_event env s e) = false :=
          Bool.not_eq_true _ ▸ hstop
        match tl with
        | [] =>
          exfalso
          have hone : handle_events env s [e] = handle_sim_event env s e := by
            simp [handle_events, hb]
          rw [hone] at hsc
          exact hstop hsc
        | t2 :: tl2 =>
          have h2 : handle_events env s (e :: t2 :: tl2) =
              handle_events env (handle_sim_event env s e) (t2 :: tl2) := by
            simp [handle_events, hb]
          have h1 : handle_events env s ((e :: t2 :: tl2) ++ rest) =
              handle_events env (handle_sim_event env s e) ((t2 :: tl2) ++ rest) := by
            simp [handle_events, hb]
          rw [h1, h2]
          exact ih (handle_sim_event env s e) rest (by simp) (h2 ▸ hsc)

/-- Witness for C5 at a concrete input: with the period still 0 the
condition holds after the first event, so an appended second event is
discarded. -/
theorem handle_events_short_circuit_witness :
    handle_events env0 sC5
        ([HQMSimulationEvent.ignored] ++ [HQMSimulationEvent.ignored]) =
      handle_events env0 sC5 [HQMSimulationEvent.ignored] :=
  (handle_events_short_circuit env0).2 sC5 [HQMSimulationEvent.ignored]
    [HQMSimulationEvent.ignored] (by simp) (by decide)

/-! ## C1: net entry is gated by the offside status -/

theorem call_offside_untouched (s : SrvState) (team : HQMTeam)
    (side : HQMRinkSide) (pos : Option HQMPassPosition) (st : Bool)
    (t : HQMTeam) :
    team_score (call_offside s team side pos st) t = team_score s t ∧
    (call_offside s team side pos st).match_events = s.match_events := by
  cases t <;> simp [call_offside, add_msg, team_score]

theorem call_goal_score (env : HQMEnv) (s : SrvState) (team : HQMTeam)
    (pk : Nat) :
    team_score (call_goal env s team pk) team = team_score s team + 1 := by
  cases team <;>
    simp only [call_goal, add_msg, team_score] <;>
    split_ifs <;>
    simp [update_game_over_untouched]

/-- C1: on a `PuckEnteredNet` event for a team: if the offside status is a
warning for that team, offside is called through the non-self-touch path and
the team's score and the match-event list are unchanged; if the status is
`Offside` for any team, the event is ignored entirely; only otherwise is
`call_goal` invoked and the team's score incremented.  Hence a team's score
never increases on a tick where its offside status is Warning or Offside. -/
theorem puck_entered_net_offside_gate (env : HQMEnv) (s : SrvState)
    (team : HQMTeam) (puck : Nat) :
    (∀ side pos pl, s.offside_status = .warning team side pos pl →
       handle_puck_entered_net env s team puck =
         call_offside s team side pos false ∧
       team_score (handle_puck_entered_net env s team puck) team =
         team_score s team ∧
       (handle_puck_entered_net env s team puck).match_events =
         s.match_events) ∧
    (∀ t, s.offside_status = .offside t →
       handle_puck_entered_net env s team puck = s) ∧
    ((∀ side pos pl, s.offside_status ≠ .warning team side pos pl) →
     (∀ t, s.offside_status ≠ .offside t) →
       handle_puck_entered_net env s team puck = call_goal env s team puck ∧
       team_score (handle_puck_entered_net env s team puck) team =
         team_score s team + 1) := by
  refine ⟨?_, ?_, ?_⟩
  · intro side pos pl hst
    have he : handle_puck_entered_net env s team puck =
        call_offside s team side pos false := by
      simp [handle_puck_entered_net, hst]
    refine ⟨he, ?_, ?_⟩
    · rw [he]; exact (call_offside_untouched s team side pos false team).1
    · rw [he]; exact (call_offside_untouched s team side pos false team).2
  · intro t hst
    simp [handle_puck_entered_net, hst]
  · intro h1 h2
    have he : handle_puck_entered_net env s team puck =
        call_goal env s team puck := by
      cases hos : s.offside_status with
      | neutral => simp [handle_puck_entered_net, hos]
      | inOffensiveZone t => simp [handle_puck_entered_net, hos]
      | warning ot sd pp pl =>
        by_cases hot : ot = team
        · subst hot
          exact absurd hos (h1 sd pp pl)
        · simp [handle_puck_entered_net, hos, hot]
      | offside t => exact absurd hos (h2 t)
    exact ⟨he, by rw [he]; exact call_goal_score env s team puck⟩

/-- Witness for C1: with a pending offside warning against red, a red net
entry leaves red's score unchanged. -/
theorem puck_entered_net_offside_gate_witness :
    team_score (handle_puck_entered_net env0 sC1 .red 0) .red =
      team_score sC1 .red :=
  ((puck_entered_net_offside_gate env0 sC1 .red 0).1 .left
    (some .reachedCenter) 3 rfl).2.1

/-! ## C3: icing enforcement on an opponent touch -/

/-- Counterexample for C3 as claimed: after `Warning(Red, Left)`, a blue
non-goalie touch yields `Icing(Red)` with the faceoff in red's defensive
zone — not `Icing(Blue)` / `DefensiveZone(Blue, side)` as the claim (and the
spec's scenario 5) states. -/
theorem icing_call_counterexample :
    (handle_puck_touch envC3 sC3 9 0).icing_status = .icing .red ∧
    (handle_puck_touch envC3 sC3 9 0).next_faceoff_spot =
      .defensiveZone .red .left ∧
    (handle_puck_touch envC3 sC3 9 0).icing_status ≠ .icing .blue := by
  decide

theorem other_team_of_ne {tt t : HQMTeam} (h : tt ≠ t) :
    tt.get_other_team = t := by
  cases tt <;> cases t <;> simp_all [HQMTeam.get_other_team]

theorem handle_puck_touch_icing_spec (s : SrvState) (pi : Nat)
    (tt t : HQMTeam) (side : HQMRinkSide)
    (hic : s.icing_status = .warning t side) (hteam : tt ≠ t)
    (hgoalie : pi ∉ s.started_as_goalie) :
    (handle_puck_touch_icing s pi tt tt.get_other_team).icing_status =
      .icing t ∧
    (handle_puck_touch_icing s pi tt tt.get_other_team).next_faceoff_spot =
      .defensiveZone t side := by
  have hot : tt.get_other_team = t := other_team_of_ne hteam
  simp [handle_puck_touch_icing, hic, hteam, hgoalie, call_icing, add_msg, hot]

theorem handle_puck_touch_twoline_spec (s : SrvState) (pi : Nat)
    (tt t : HQMTeam) (side : HQMRinkSide)
    (hic : s.icing_status = .warning t side) (hteam : tt ≠ t)
    (hgoalie : pi ∉ s.started_as_goalie)
    (htl : ∀ sd posn pls, s.twoline_pass_status = .warning tt sd posn pls →
      pi ∉ pls) :
    (handle_puck_touch_twoline s pi tt tt.get_other_team).icing_status =
      .icing t ∧
    (handle_puck_touch_twoline s pi tt tt.get_other_team).next_faceoff_spot =
      .defensiveZone t side := by
  cases htls : s.twoline_pass_status with
  | no =>
    simp only [handle_puck_touch_twoline, htls]
    exact handle_puck_touch_icing_spec s pi tt t side hic hteam hgoalie
  | offside t0 =>
    simp only [handle_puck_touch_twoline, htls]
    exact handle_puck_touch_icing_spec s pi tt t side hic hteam hgoalie
  | warning wt sd pp pls =>
    simp only [handle_puck_touch_twoline, htls]
    have hcond : ¬(wt = tt ∧ pi ∈ pls) := by
      rintro ⟨h1, h2⟩
      subst h1
      exact htl sd pp pls htls h2
    rw [if_neg hcond]
    exact handle_puck_touch_icing_spec
      (add_msg { s with twoline_pass_status := .no } .twoLineWavedOff)
      pi tt t side (by simpa [add_msg] using hic) hteam
      (by simpa [add_msg] using hgoalie)

/-- C3 amended: when the icing status is `Warning(t, side)` and an opposing
player (team ≠ t) who is not in `started_as_goalie` touches the puck (with no
offside warning for the toucher's team and no two-line-pass warning naming
the toucher), icing is called against the team that iced the puck: the
status becomes `Icing(t)` and the next faceoff spot
`DefensiveZone(t, side)` — i.e. after `Warning(Red, side)` a blue non-goalie
touch yields `Icing(Red)` and a faceoff in red's defensive zone. -/
theorem icing_call_amended (env : HQMEnv) (s : SrvState) (pobj pk pi : Nat)
    (tt t : HQMTeam) (pd : HQMPuckData) (side : HQMRinkSide)
    (hres : env.resolve pobj = some (pi, tt))
    (hpk : env.puck pk = some pd)
    (hic : s.icing_status = .warning t side)
    (hteam : tt ≠ t)
    (hgoalie : pi ∉ s.started_as_goalie)
    (hoff : ∀ sd posn pl, s.offside_status ≠ .warning tt sd posn pl)
    (htl : ∀ sd posn pls, s.twoline_pass_status = .warning tt sd posn pls →
      pi ∉ pls) :
    (handle_puck_touch env s pobj pk).icing_status = .icing t ∧
    (handle_puck_touch env s pobj pk).next_faceoff_spot =
      .defensiveZone t side := by
  simp only [handle_puck_touch, hres, hpk]
  cases hos : s.offside_status with
  | warning ot sd0 pp0 pl0 =>
    have hot : ¬ot = tt := by
      intro h
      subst h
      exact hoff sd0 pp0 pl0 hos
    simp only [hos, hot, if_false]
    exact handle_puck_touch_twoline_spec _ pi tt t side hic hteam hgoalie htl
  | neutral =>
    simp only [hos]
    exact handle_puck_touch_twoline_spec _ pi tt t side hic hteam hgoalie htl
  | inOffensiveZone t0 =>
    simp only [hos]
    exact handle_puck_touch_twoline_spec _ pi tt t side hic hteam hgoalie htl
  | offside t0 =>
    simp only [hos]
    exact handle_puck_touch_twoline_spec _ pi tt t side hic hteam hgoalie htl

/-- Witness for the amended C3 at the concrete counterexample input. -/
theorem icing_call_amended_witness :
    (handle_puck_touch envC3 sC3 9 0).icing_status = .icing .red :=
  (icing_call_amended envC3 sC3 9 0 5 .blue .red ⟨0, 0, true⟩ .left
    rfl rfl rfl (by decide) (by decide)
    (by intro sd posn pl h; simp [sC3, sBase] at h)
    (by intro sd posn pls h; simp [sC3, sBase] at h)).1

/-! ## C8: which line crossings wave off a two-line-pass warning -/

theorem update_pass_keeps (s : SrvState) (team : HQMTeam)
    (p : HQMPassPosition) :
    (update_pass s team p).twoline_pass_status = s.twoline_pass_status ∧
    (update_pass s team p).messages = s.messages := by
  unfold update_pass
  split
  · split_ifs <;> exact ⟨rfl, rfl⟩
  · exact ⟨rfl, rfl⟩

theorem puck_into_offside_zone_keeps (env : HQMEnv) (s : SrvState)
    (team : HQMTeam) :
    (puck_into_offside_zone env s team).twoline_pass_status =
      s.twoline_pass_status := by
  unfold puck_into_offside_zone
  split
  · rfl
  · split
    · split_ifs
      · split <;> simp [add_msg, call_offside]
      · rfl
    · rfl

theorem offside_zone_entry_keeps (env : HQMEnv) (s : SrvState)
    (team : HQMTeam) (line : HQMOffsideLineConfiguration) :
    (offside_zone_entry env s team line).twoline_pass_status =
      s.twoline_pass_status := by
  unfold offside_zone_entry
  split_ifs
  · exact puck_into_offside_zone_keeps env s team
  · rfl

theorem offside_waveoff_message_keeps (s : SrvState) (team : HQMTeam) :
    (offside_waveoff_message s team).twoline_pass_status =
      s.twoline_pass_status := by
  unfold offside_waveoff_message
  split
  · split_ifs <;> simp [add_msg]
  · rfl

theorem twoline_check_regular_keeps (env : HQMEnv) (s : SrvState)
    (team : HQMTeam) (h : s.twoline_pass_status ≠ .no) :
    (twoline_check_regular env s team).twoline_pass_status =
      s.twoline_pass_status := by
  unfold twoline_check_regular
  split
  · split
    · split_ifs with h1
      · exact absurd h1.1 h
      · rfl
    · rfl
  · rfl

theorem twoline_check_offensive_keeps (env : HQMEnv) (s : SrvState)
    (team : HQMTeam) (h : s.twoline_pass_status ≠ .no) :
    (twoline_check_offensive env s team).twoline_pass_status =
      s.twoline_pass_status := by
  unfold twoline_check_offensive
  split
  · split
    · split_ifs with h1
      · exact absurd h1.1 h
      · rfl
    · rfl
  · rfl

theorem handle_puck_passed_goal_line_keeps (s : SrvState) (team : HQMTeam) :
    (handle_puck_passed_goal_line s team).twoline_pass_status =
      s.twoline_pass_status := by
  unfold handle_puck_passed_goal_line
  split
  · split
    · split_ifs
      · split <;> simp [add_msg, call_icing]
      · rfl
    · rfl
  · rfl

theorem handle_puck_passed_defensive_line_keeps (s : SrvState)
    (team : HQMTeam) :
    (handle_puck_passed_defensive_line s team).twoline_pass_status =
      s.twoline_pass_status := by
  simp only [handle_puck_passed_defensive_line]
  split_ifs
  · split
    · split_ifs <;> simp [add_msg]
    · simp
  · rfl

/-- Counterexample for C8 as claimed: with a two-line-pass warning pending
against red, a `PuckPassedCenterLine` crossing by blue leaves the warning in
place and emits nothing — the claim says every line-crossing event by the
opposing team clears the status and emits "Two-line pass waved off". -/
theorem twoline_wave_off_counterexample :
    (handle_sim_event env0 sC8
        (.puckPassedCenterLine .blue 0)).twoline_pass_status =
      .warning .red .left .reachedOwnBlue [7] ∧
    (handle_sim_event env0 sC8 (.puckPassedCenterLine .blue 0)).messages =
      sC8.messages := by
  decide

/-- C8 amended: while the two-line-pass status is `Warning(wt, …)`, exactly
the `PuckReachedDefensiveLine` and `PuckReachedCenterLine` events of a team
other than `wt` clear the status to `No` and emit "Two-line pass waved off";
the passed-own-blue, passed-center, reached/entered-offensive-zone and
passed-goal-line events leave the two-line-pass status unchanged. -/
theorem twoline_wave_off_amended (env : HQMEnv) (s : SrvState)
    (wt : HQMTeam) (sd : HQMRinkSide) (pp : HQMPassPosition) (pls : List Nat)
    (team : HQMTeam) (puck : Nat)
    (h : s.twoline_pass_status = .warning wt sd pp pls) (hne : team ≠ wt) :
    ((handle_sim_event env s
        (.puckReachedDefensiveLine team puck)).twoline_pass_status = .no ∧
     (handle_sim_event env s (.puckReachedDefensiveLine team puck)).messages =
       s.messages ++ [.twoLineWavedOff]) ∧
    ((handle_sim_event env s
        (.puckReachedCenterLine team puck)).twoline_pass_status = .no ∧
     (handle_sim_event env s (.puckReachedCenterLine team puck)).messages =
       s.messages ++ [.twoLineWavedOff]) ∧
    (handle_sim_event env s
        (.puckPassedDefensiveLine team puck)).twoline_pass_status =
      s.twoline_pass_status ∧
    (handle_sim_event env s
        (.puckPassedCenterLine team puck)).twoline_pass_status =
      s.twoline_pass_status ∧
    (handle_sim_event env s
        (.puckReachedOffensiveZone team puck)).twoline_pass_status =
      s.twoline_pass_status ∧
    (handle_sim_event env s
        (.puckEnteredOffensiveZone team puck)).twoline_pass_status =
      s.twoline_pass_status ∧
    (handle_sim_event env s
        (.puckPassedGoalLine team puck)).twoline_pass_status =
      s.twoline_pass_status := by
  have hw : check_wave_off_twoline s team =
      add_msg { s with twoline_pass_status := .no } .twoLineWavedOff := by
    simp [check_wave_off_twoline, h, hne]
  refine ⟨?_, ?_, ?_, ?_, ?_, ?_, ?_⟩
  · simp only [handle_sim_event, hw]
    refine ⟨?_, ?_⟩
    · rw [(update_pass_keeps _ _ _).1]; simp [add_msg]
    · rw [(update_pass_keeps _ _ _).2]; simp [add_msg]
  · simp only [handle_sim_event, hw]
    refine ⟨?_, ?_⟩
    · rw [(update_pass_keeps _ _ _).1]; simp [add_msg]
    · rw [(update_pass_keeps _ _ _).2]; simp [add_msg]
  · simp only [handle_sim_event]
    rw [handle_puck_passed_defensive_line_keeps, (update_pass_keeps _ _ _).1]
  · simp only [handle_sim_event, handle_puck_entered_offensive_half]
    have k1 := (update_pass_keeps s team .passedCenter).1
    have k2 := offside_zone_entry_keeps env (update_pass s team .passedCenter)
      team .center
    have k3 := offside_waveoff_message_keeps
      (offside_zone_entry env (update_pass s team .passedCenter) team .center)
      team
    rw [twoline_check_regular_keeps, k3, k2, k1]
    rw [k3, k2, k1, h]
    simp
  · exact (update_pass_keeps s team .reachedOffensive).1
  · simp only [handle_sim_event, handle_puck_entered_offensive_zone]
    have k1 := (update_pass_keeps s team .passedOffensive).1
    have k2 := offside_zone_entry_keeps env
      (update_pass s team .passedOffensive) team .offensiveBlue
    rw [twoline_check_offensive_keeps, k2, k1]
    rw [k2, k1, h]
    simp
  · exact handle_puck_passed_goal_line_keeps s team

/-- Witness for the amended C8 at the concrete input: a blue
reached-center-line crossing clears the warning against red. -/
theorem twoline_wave_off_amended_witness :
    (handle_sim_event env0 sC8
        (.puckReachedCenterLine .blue 0)).twoline_pass_status = .no :=
  ((twoline_wave_off_amended env0 sC8 .red .left .reachedOwnBlue [7] .blue 0
    rfl (by decide)).2.1).1

/-! ## C9: faceoff position assignment -/

theorem setup_change_index_eq (m : PosMap) :
    ∀ (players : List (Nat × Option String)) (ci : Option Nat),
    setup_change_index m players ci =
      (match players.find? (fun pp =>
          match alist_get m pp.1 with
          | some (_, pos) => pos != "G"
          | none => false) with
      | some pp => some pp.1
      | none =>
        match ci with
        | some x => some x
        | none => players.head?.map (fun pp => pp.1)) := by
  intro players
  induction players with
  | nil => intro ci; cases ci <;> simp [setup_change_index]
  | cons hd tl ih =>
    intro ci
    obtain ⟨pid, pref⟩ := hd
    cases hg : alist_get m pid with
    | some v =>
      obtain ⟨t0, pos⟩ := v
      by_cases hpos : pos = "G"
      · simp only [setup_change_index, hg, hpos]
        rw [ih]
        cases ci <;> simp [List.find?_cons, hg, hpos]
      · simp [setup_change_index, hg, hpos, List.find?_cons]
    | none =>
      simp only [setup_change_index, hg]
      rw [ih]
      cases ci <;> simp [List.find?_cons, hg]

theorem setup_change_index_isSome (m : PosMap) (hd : Nat × Option String)
    (tl : List (Nat × Option String)) :
    ∃ ci, setup_change_index m (hd :: tl) none = some ci := by
  rw [setup_change_index_eq]
  cases hfind : (hd :: tl).find? (fun pp =>
      match alist_get m pp.1 with
      | some (_, pos) => pos != "G"
      | none => false) with
  | some pp => exact ⟨pp.1, by simp [hfind]⟩
  | none => exact ⟨hd.1, by simp [hfind]⟩

theorem setup_round1_inv (team : HQMTeam) :
    ∀ (l : List (Nat × Option String)) (avail : List String) (m : PosMap),
      (l.map Prod.fst).Nodup →
      ("C" ∈ avail ∨
        ∃ h, h ∉ l.map Prod.fst ∧ alist_get m h = some (team, "C")) →
      ("C" ∈ (setup_round1 team l avail m).1 ∨
        ∃ h, alist_get (setup_round1 team l avail m).2 h = some (team, "C")) := by
  intro l
  induction l with
  | nil =>
    intro avail m _ hinv
    simp only [setup_round1]
    rcases hinv with h | ⟨h, _, hget⟩
    · exact Or.inl h
    · exact Or.inr ⟨h, hget⟩
  | cons hd tl ih =>
    intro avail m hnd hinv
    obtain ⟨pid, pref⟩ := hd
    have hnd2 : pid ∉ tl.map Prod.fst ∧ (tl.map Prod.fst).Nodup := by
      have := hnd
      simp only [List.map_cons, List.nodup_cons] at this
      exact this
    cases pref with
    | none =>
      simp only [setup_round1]
      apply ih avail m hnd2.2
      rcases hinv with hC | ⟨h, hmem, hget⟩
      · exact Or.inl hC
      · exact Or.inr ⟨h, fun hh => hmem (by simp [hh]), hget⟩
    | some p =>
      by_cases hp : p ∈ avail
      · simp only [setup_round1, hp, if_true]
        apply ih _ _ hnd2.2
        rcases hinv with hC | ⟨h, hmem, hget⟩
        · by_cases hpc : p = "C"
          · subst hpc
            exact Or.inr ⟨pid, hnd2.1,
              alist_get_insert_same m pid (team, "C")⟩
          · exact Or.inl ((List.mem_erase_of_ne
              (fun hh => hpc hh.symm)).mpr hC)
        · have hne : pid ≠ h := by
            intro e
            exact hmem (by simp [e])
          exact Or.inr ⟨h, fun hh => hmem (by simp [hh]),
            by rw [alist_get_insert_ne m pid h _ hne]; exact hget⟩
      · simp only [setup_round1, hp, if_false]
        apply ih avail m hnd2.2
        rcases hinv with hC | ⟨h, hmem, hget⟩
        · exact Or.inl hC
        · exact Or.inr ⟨h, fun hh => hmem (by simp [hh]), hget⟩

theorem setup_round2_inv (team : HQMTeam) :
    ∀ (l : List (Nat × Option String)) (avail : List String) (m : PosMap),
      ("C" ∈ avail ∨ ∃ h, alist_get m h = some (team, "C")) →
      ("C" ∈ (setup_round2 team l avail m).1 ∨
        ∃ h, alist_get (setup_round2 team l avail m).2 h = some (team, "C")) := by
  intro l
  induction l with
  | nil => intro avail m hinv; simpa [setup_round2] using hinv
  | cons hd tl ih =>
    intro avail m hinv
    obtain ⟨pid, pref⟩ := hd
    by_cases hc : alist_contains m pid = true
    · simp only [setup_round2, hc, if_true]
      exact ih avail m hinv
    · have hget0 : alist_get m pid = none := by
        simp only [alist_contains, Option.isSome] at hc
        cases hg : alist_get m pid with
        | some v => rw [hg] at hc; exact absurd rfl hc
        | none => rfl
      by_cases hC : "C" ∈ avail
      · simp only [setup_round2, hc, hC, if_true, if_false]
        apply ih
        exact Or.inr ⟨pid, alist_get_insert_same m pid (team, "C")⟩
      · have hold : ∃ h, alist_get m h = some (team, "C") := by
          rcases hinv with h | h
          · exact absurd h hC
          · exact h
        obtain ⟨h, hget⟩ := hold
        have hne : pid ≠ h := by
          intro e
          rw [e] at hget0
          rw [hget0] at hget
          cases hget
        cases avail with
        | cons a arest =>
          simp only [setup_round2, hc, hC, if_false]
          apply ih
          exact Or.inr ⟨h,
            by rw [alist_get_insert_ne m pid h _ hne]; exact hget⟩
        | nil =>
          simp only [setup_round2, hc, if_false]
          apply ih
          exact Or.inr ⟨h,
            by rw [alist_get_insert_ne m pid h _ hne]; exact hget⟩

/-- C9: `setup_position` implements the specified assignment.  The first
conjunct proves the post-pass correct against the claim's wording
(`change_index_spec`: the first player in roster order whose assigned
position is not G, falling back to the first player); the second proves the
claimed consequence: every non-empty roster (with distinct player indices,
as the slot vector guarantees) ends up with some player assigned C. -/
theorem setup_position_assigns_c (m0 : PosMap)
    (players : List (Nat × Option String)) (team : HQMTeam) :
    (∀ (m : PosMap) (l : List (Nat × Option String)),
       setup_change_index m l none = change_index_spec m l) ∧
    (players ≠ [] → (players.map Prod.fst).Nodup →
       ∃ pid, alist_get (setup_position m0 players team) pid =
         some (team, "C")) := by
  constructor
  · intro m l
    rw [setup_change_index_eq]
    rfl
  · intro hne hnd
    have h1 := setup_round1_inv team players ALLOWED_POSITIONS m0 hnd
      (Or.inl (by simp [ALLOWED_POSITIONS]))
    have h2 := setup_round2_inv team players
      (setup_round1 team players ALLOWED_POSITIONS m0).1
      (setup_round1 team players ALLOWED_POSITIONS m0).2 h1
    simp only [setup_position]
    by_cases hC : "C" ∈ (setup_round2 team players
        (setup_round1 team players ALLOWED_POSITIONS m0).1
        (setup_round1 team players ALLOWED_POSITIONS m0).2).1
    · match players, hne with
      | hd :: tl, _ =>
        obtain ⟨ci, hci⟩ := setup_change_index_isSome
          (setup_round2 team (hd :: tl)
            (setup_round1 team (hd :: tl) ALLOWED_POSITIONS m0).1
            (setup_round1 team (hd :: tl) ALLOWED_POSITIONS m0).2).2 hd tl
        rw [if_pos hC, hci]
        exact ⟨ci, alist_get_insert_same _ _ _⟩
    · rw [if_neg hC]
      exact h2.resolve_left hC

/-- Witness for C9 on a concrete roster: neither player prefers C, the
goalie is skipped, and player 1 is reassigned to C. -/
theorem setup_position_assigns_c_witness :
    ∃ pid, alist_get
        (setup_position [] [(0, some "G"), (1, some "LW")] .red) pid =
      some (.red, "C") :=
  (setup_position_assigns_c [] [(0, some "G"), (1, some "LW")] .red).2
    (by simp) (by simp)

/-! ## C10: the last admin leaving re-enables joining -/

theorem remove_player_aux (s : ServerS) (i : Nat) (p : HQMConnectedPlayer)
    (hp : s.players.get? i = some (some p)) (hadmin : p.is_admin = true)
    (hno : ∀ j q, j ≠ i → s.players.get? j = some (some q) →
      q.is_admin = false) :
    (remove_player s i).allow_join = true := by
  have hlen : i < s.players.length := (List.get?_eq_some.mp hp).1
  have hany : ∀ (L : List (Option HQMConnectedPlayer)),
      L = (s.players.map (fun op => op.map (fun q =>
        { q with messages := q.messages ++
            [SrvMsg.playerUpdate p.player_name .spec i none false] }))).set i none →
      (L.any (fun op =>
        match op with
        | some player => player.is_admin
        | none => false)) = false := by
    intro L hL
    rw [Bool.eq_false_iff]
    intro hcontra
    obtain ⟨x, hx, hpx⟩ := List.any_eq_true.mp hcontra
    obtain ⟨j, hj⟩ := List.mem_iff_get?.mp hx
    rw [hL] at hj
    by_cases hji : j = i
    · subst hji
      rw [List.get?_set_eq_of_lt _ (by simpa using hlen)] at hj
      cases hj
      cases hpx
    · rw [List.get?_set_ne _ _ (fun h => hji h.symm)] at hj
      rw [List.get?_map] at hj
      obtain ⟨y, hy, hfy⟩ := Option.map_eq_some'.mp hj
      cases y with
      | none =>
        rw [← hfy] at hpx
        cases hpx
      | some q =>
        rw [← hfy] at hpx
        simp only [Option.map_some'] at hpx
        have := hno j q hji hy
        rw [this] at hpx
        cases hpx
  cases hsk : p.skater with
  | none =>
    simp only [remove_player, hp, hsk, add_global_message, hadmin, if_true]
    rw [hany _ (by simp)]
    simp
  | some oi =>
    simp only [remove_player, hp, hsk, add_global_message, hadmin, if_true]
    rw [hany _ (by simp)]
    simp

/-- C10: postcondition of `remove_player` (reached both by explicit exit and
by the inactivity timeout): if the removed player had the admin flag and,
after removal, no remaining connected player has the admin flag, then
`allow_join` is set to true. -/
theorem remove_player_enables_join (s : ServerS) (i : Nat)
    (p : HQMConnectedPlayer)
    (hp : s.players.get? i = some (some p))
    (hadmin : p.is_admin = true)
    (hno : ∀ j q, j ≠ i → s.players.get? j = some (some q) →
      q.is_admin = false) :
    (remove_player s i).allow_join = true ∧
    (500 ≤ p.inactivity + 1 →
      (remove_inactive_step s i).allow_join = true) := by
  have hlen : i < s.players.length := (List.get?_eq_some.mp hp).1
  refine ⟨remove_player_aux s i p hp hadmin hno, ?_⟩
  intro htimeout
  have key : ∀ p2 : HQMConnectedPlayer, p2.is_admin = true →
      (remove_player { s with players := s.players.set i (some p2) }
        i).allow_join = true := by
    intro p2 hadm2
    apply remove_player_aux _ i p2
    · exact List.get?_set_eq_of_lt _ hlen
    · exact hadm2
    · intro j q hji hj
      have hj2 : (s.players.set i (some p2)).get? j = some (some q) := hj
      rw [List.get?_set_ne _ _ (fun h => hji h.symm)] at hj2
      exact hno j q hji hj2
  simp only [remove_inactive_step, hp]
  rw [if_pos htimeout]
  simp only [add_server_chat_message, add_global_message]
  exact key _ hadmin

/-- Witness for C10: a join-disabled server whose only player is an admin
with 499 inactive ticks; both the explicit removal and the timeout sweep
re-enable joining. -/
theorem remove_player_enables_join_witness :
    (remove_player sSrv 0).allow_join = true ∧
    (remove_inactive_step sSrv 0).allow_join = true := by
  have hno : ∀ j q, j ≠ 0 → sSrv.players.get? j = some (some q) →
      q.is_admin = false := by
    intro j q hj hq
    match j, hj with
    | Nat.succ n, _ => simp [sSrv] at hq
  have h := remove_player_enables_join sSrv 0 pAdmin rfl rfl hno
  exact ⟨h.1, h.2 (by decide)⟩

/-! ## C7: game-over monotonicity within a game -/

theorem coreEq_trans {s1 s2 s3 : SrvState} (h1 : CoreEq s1 s2)
    (h2 : CoreEq s2 s3) : CoreEq s1 s3 := by
  obtain ⟨a1, b1, c1, d1, e1, f1⟩ := h1
  obtain ⟨a2, b2, c2, d2, e2, f2⟩ := h2
  exact ⟨a2.trans a1, b2.trans b1, c2.trans c1, d2.trans d1, e2.trans e1,
    f2.trans f1⟩

theorem game_over_condition_fields (s x : SrvState)
    (hc : x.config = s.config) (hr : x.red_score = s.red_score)
    (hb : x.blue_score = s.blue_score) (hp : x.period = s.period) :
    game_over_condition x = game_over_condition s := by
  simp only [game_over_condition, hc, hr, hb, hp]

theorem game_over_inv_coreEq {s x : SrvState} (h : CoreEq s x)
    (hi : game_over_inv s) : game_over_inv x := by
  intro hg
  obtain ⟨hc, hr, hb, hp, hgo, _⟩ := h
  rw [game_over_condition_fields s x hc hr hb hp]
  exact hi (hgo.symm.trans hg)

theorem coreEq_call_offside (s : SrvState) (team : HQMTeam)
    (side : HQMRinkSide) (pos : Option HQMPassPosition) (st : Bool) :
    CoreEq s (call_offside s team side pos st) :=
  ⟨rfl, rfl, rfl, rfl, rfl, rfl⟩

theorem coreEq_call_twoline_pass (s : SrvState) (team : HQMTeam)
    (side : HQMRinkSide) (pos : HQMPassPosition) :
    CoreEq s (call_twoline_pass s team side pos) :=
  ⟨rfl, rfl, rfl, rfl, rfl, rfl⟩

theorem coreEq_call_icing (s : SrvState) (team : HQMTeam)
    (side : HQMRinkSide) : CoreEq s (call_icing s team side) :=
  ⟨rfl, rfl, rfl, rfl, rfl, rfl⟩

theorem coreEq_check_twoline_pass (env : HQMEnv) (s : SrvState)
    (team : HQMTeam) (side : HQMRinkSide) (fp : HQMPassPosition)
    (pp : Nat) (b : Bool) :
    CoreEq s (check_twoline_pass env s team side fp pp b) := by
  simp only [check_twoline_pass]
  split
  · exact ⟨rfl, rfl, rfl, rfl, rfl, rfl⟩
  · exact ⟨rfl, rfl, rfl, rfl, rfl, rfl⟩

theorem coreEq_update_pass (s : SrvState) (team : HQMTeam)
    (p : HQMPassPosition) : CoreEq s (update_pass s team p) := by
  unfold update_pass
  repeat' split
  all_goals exact ⟨rfl, rfl, rfl, rfl, rfl, rfl⟩

theorem coreEq_check_wave_off_twoline (s : SrvState) (team : HQMTeam) :
    CoreEq s (check_wave_off_twoline s team) := by
  unfold check_wave_off_twoline
  repeat' split
  all_goals exact ⟨rfl, rfl, rfl, rfl, rfl, rfl⟩

theorem coreEq_handle_puck_passed_goal_line (s : SrvState) (team : HQMTeam) :
    CoreEq s (handle_puck_passed_goal_line s team) := by
  unfold handle_puck_passed_goal_line
  repeat' split
  all_goals exact ⟨rfl, rfl, rfl, rfl, rfl, rfl⟩

theorem coreEq_handle_puck_passed_defensive_line (s : SrvState)
    (team : HQMTeam) : CoreEq s (handle_puck_passed_defensive_line s team) := by
  unfold handle_puck_passed_defensive_line
  repeat' split
  all_goals exact ⟨rfl, rfl, rfl, rfl, rfl, rfl⟩

theorem coreEq_puck_into_offside_zone (env : HQMEnv) (s : SrvState)
    (team : HQMTeam) : CoreEq s (puck_into_offside_zone env s team) := by
  unfold puck_into_offside_zone
  repeat' split
  all_goals exact ⟨rfl, rfl, rfl, rfl, rfl, rfl⟩

theorem coreEq_offside_zone_entry (env : HQMEnv) (s : SrvState)
    (team : HQMTeam) (line : HQMOffsideLineConfiguration) :
    CoreEq s (offside_zone_entry env s team line) := by
  unfold offside_zone_entry
  split_ifs
  · exact coreEq_puck_into_offside_zone env s team
  · exact ⟨rfl, rfl, rfl, rfl, rfl, rfl⟩

theorem coreEq_offside_waveoff_message (s : SrvState) (team : HQMTeam) :
    CoreEq s (offside_waveoff_message s team) := by
  unfold offside_waveoff_message
  repeat' split
  all_goals exact ⟨rfl, rfl, rfl, rfl, rfl, rfl⟩

theorem coreEq_twoline_check_regular (env : HQMEnv) (s : SrvState)
    (team : HQMTeam) : CoreEq s (twoline_check_regular env s team) := by
  simp only [twoline_check_regular]
  repeat' split
  all_goals first
    | exact ⟨rfl, rfl, rfl, rfl, rfl, rfl⟩
    | apply coreEq_check_twoline_pass

theorem coreEq_twoline_check_offensive (env : HQMEnv) (s : SrvState)
    (team : HQMTeam) : CoreEq s (twoline_check_offensive env s team) := by
  simp only [twoline_check_offensive]
  repeat' split
  all_goals first
    | exact ⟨rfl, rfl, rfl, rfl, rfl, rfl⟩
    | apply coreEq_check_twoline_pass

theorem coreEq_handle_puck_touch_icing (s : SrvState) (pi : Nat)
    (tt ot : HQMTeam) : CoreEq s (handle_puck_touch_icing s pi tt ot) := by
  unfold handle_puck_touch_icing
  repeat' split
  all_goals exact ⟨rfl, rfl, rfl, rfl, rfl, rfl⟩

theorem coreEq_handle_puck_touch_twoline (s : SrvState) (pi : Nat)
    (tt ot : HQMTeam) : CoreEq s (handle_puck_touch_twoline s pi tt ot) := by
  unfold handle_puck_touch_twoline
  repeat' split
  all_goals first
    | exact ⟨rfl, rfl, rfl, rfl, rfl, rfl⟩
    | apply coreEq_call_twoline_pass
    | exact coreEq_trans ⟨rfl, rfl, rfl, rfl, rfl, rfl⟩
        (coreEq_handle_puck_touch_icing _ _ _ _)

theorem coreEq_handle_puck_touch (env : HQMEnv) (s : SrvState)
    (player pk : Nat) : CoreEq s (handle_puck_touch env s player pk) := by
  simp only [handle_puck_touch]
  repeat' split
  all_goals first
    | exact ⟨rfl, rfl, rfl, rfl, rfl, rfl⟩
    | exact coreEq_trans ⟨rfl, rfl, rfl, rfl, rfl, rfl⟩
        (coreEq_call_offside _ _ _ _ _)
    | exact coreEq_trans ⟨rfl, rfl, rfl, rfl, rfl, rfl⟩
        (coreEq_handle_puck_touch_twoline _ _ _ _)

theorem coreEq_handle_events_end_of_period_step (s : SrvState)
    (e : HQMSimulationEvent) :
    CoreEq s (handle_events_end_of_period_step s e) := by
  simp only [handle_events_end_of_period_step]
  repeat' split
  all_goals exact ⟨rfl, rfl, rfl, rfl, rfl, rfl⟩

theorem coreEq_handle_events_end_of_period (s : SrvState)
    (events : List HQMSimulationEvent) :
    CoreEq s (handle_events_end_of_period s events) := by
  unfold handle_events_end_of_period
  induction events generalizing s with
  | nil => exact ⟨rfl, rfl, rfl, rfl, rfl, rfl⟩
  | cons e tl ih =>
    exact coreEq_trans (coreEq_handle_events_end_of_period_step s e) (ih _)

theorem new_game_inv (s : SrvState) : game_over_inv (new_game s) := by
  intro hg
  simp [new_game] at hg

theorem update_game_over_inv (s : SrvState) :
    game_over_inv (update_game_over s) := by
  intro h
  have hu := update_game_over_untouched s
  rw [game_over_condition_fields s (update_game_over s) hu.2.2.2.2.2.1
    hu.2.2.2.1 hu.2.2.2.2.1 hu.2.2.1]
  rw [update_game_over_game_over] at h
  exact h

set_option maxRecDepth 4000 in
theorem call_goal_inv (env : HQMEnv) (s : SrvState) (team : HQMTeam)
    (pk : Nat) : game_over_inv (call_goal env s team pk) := by
  cases team <;>
    simp only [call_goal, add_msg] <;>
    split_ifs <;>
    intro h <;>
    simp only [game_over_condition, update_game_over_untouched,
      update_game_over_game_over] at h ⊢ <;>
    exact h

theorem handle_puck_entered_net_inv (env : HQMEnv) (s : SrvState)
    (team : HQMTeam) (pk : Nat) (h : game_over_inv s) :
    game_over_inv (handle_puck_entered_net env s team pk) := by
  unfold handle_puck_entered_net
  repeat' split
  all_goals first
    | exact h
    | exact call_goal_inv _ _ _ _

theorem handle_sim_event_inv (env : HQMEnv) (s : SrvState)
    (e : HQMSimulationEvent) (h : game_over_inv s) :
    game_over_inv (handle_sim_event env s e) := by
  cases e with
  | puckEnteredNet team puck => exact handle_puck_entered_net_inv env s team puck h
  | puckTouch player puck =>
    exact game_over_inv_coreEq (coreEq_handle_puck_touch env s player puck) h
  | puckReachedDefensiveLine team puck =>
    exact game_over_inv_coreEq
      (coreEq_trans (coreEq_check_wave_off_twoline s team)
        (coreEq_update_pass _ _ _)) h
  | puckPassedDefensiveLine team puck =>
    exact game_over_inv_coreEq
      (coreEq_trans (coreEq_update_pass _ _ _)
        (coreEq_handle_puck_passed_defensive_line _ _)) h
  | puckReachedCenterLine team puck =>
    exact game_over_inv_coreEq
      (coreEq_trans (coreEq_check_wave_off_twoline s team)
        (coreEq_update_pass _ _ _)) h
  | puckPassedCenterLine team puck =>
    exact game_over_inv_coreEq
      (coreEq_trans (coreEq_update_pass _ _ _)
        (coreEq_trans (coreEq_offside_zone_entry _ _ _ _)
          (coreEq_trans (coreEq_offside_waveoff_message _ _)
            (coreEq_twoline_check_regular _ _ _)))) h
  | puckReachedOffensiveZone team puck =>
    exact game_over_inv_coreEq (coreEq_update_pass _ _ _) h
  | puckEnteredOffensiveZone team puck =>
    exact game_over_inv_coreEq
      (coreEq_trans (coreEq_update_pass _ _ _)
        (coreEq_trans (coreEq_offside_zone_entry _ _ _ _)
          (coreEq_twoline_check_offensive _ _ _))) h
  | puckPassedGoalLine team puck =>
    exact game_over_inv_coreEq (coreEq_handle_puck_passed_goal_line _ _) h
  | ignored => exact h

theorem handle_events_inv (env : HQMEnv) :
    ∀ (l : List HQMSimulationEvent) (s : SrvState), game_over_inv s →
      game_over_inv (handle_events env s l) := by
  intro l
  induction l with
  | nil => intro s h; exact h
  | cons e tl ih =>
    intro s h
    simp only [handle_events]
    split_ifs
    · exact handle_sim_event_inv env s e h
    · exact ih _ (handle_sim_event_inv env s e h)

theorem update_clock_inv (env : HQMEnv) (s : SrvState)
    (h : game_over_inv s) : game_over_inv (update_clock env s) := by
  simp only [update_clock]
  split_ifs
  all_goals first
    | exact game_over_inv_coreEq ⟨rfl, rfl, rfl, rfl, rfl, rfl⟩ h
    | exact game_over_inv_coreEq ⟨rfl, rfl, rfl, rfl, rfl, rfl⟩
        (new_game_inv _)
    | exact game_over_inv_coreEq ⟨rfl, rfl, rfl, rfl, rfl, rfl⟩
        (update_game_over_inv _)

theorem replay_check_inv (s : SrvState) (h : game_over_inv s) :
    game_over_inv (replay_check s) := by
  unfold replay_check
  repeat' split
  all_goals exact game_over_inv_coreEq ⟨rfl, rfl, rfl, rfl, rfl, rfl⟩ h

theorem replay_check_keeps (s : SrvState) :
    (replay_check s).game_over = s.game_over ∧
    (replay_check s).game_id = s.game_id := by
  unfold replay_check
  repeat' split
  all_goals exact ⟨rfl, rfl⟩

theorem after_tick_inv (env : HQMEnv) (s : SrvState)
    (events : List HQMSimulationEvent) (h : game_over_inv s) :
    game_over_inv (after_tick env s events) := by
  simp only [after_tick]
  apply replay_check_inv
  apply update_clock_inv
  by_cases h1 : s.time = 0 ∧ s.period > 1
  · rw [if_pos h1]
    exact game_over_inv_coreEq
      (coreEq_trans ⟨rfl, rfl, rfl, rfl, rfl, rfl⟩
        (coreEq_handle_events_end_of_period _ _)) h
  · rw [if_neg h1]
    by_cases h2 : s.pause_timer > 0 ∨ s.time = 0 ∨ s.game_over = true ∨
        s.period = 0 ∨ s.paused = true
    · rw [if_pos h2]
      exact game_over_inv_coreEq ⟨rfl, rfl, rfl, rfl, rfl, rfl⟩ h
    · rw [if_neg h2]
      have h3 : game_over_inv
          (handle_events env { s with match_events := [] } events) :=
        handle_events_inv env events _
          (game_over_inv_coreEq ⟨rfl, rfl, rfl, rfl, rfl, rfl⟩ h)
      repeat' split
      all_goals exact game_over_inv_coreEq ⟨rfl, rfl, rfl, rfl, rfl, rfl⟩ h3

theorem cond_mono (s x : SrvState) (hc : x.config = s.config)
    (hr : x.red_score = s.red_score) (hb : x.blue_score = s.blue_score)
    (hp : x.period = s.period + 1) (h : game_over_condition s = true) :
    game_over_condition x = true := by
  unfold game_over_condition at h ⊢
  rw [hc, hr, hb, hp]
  split_ifs at h ⊢ <;> first | rfl | omega

theorem update_clock_go_cases (env : HQMEnv) (s : SrvState)
    (hg : s.game_over = true) (hc : game_over_condition s = true) :
    ((update_clock env s).game_over = true ∧
      (update_clock env s).game_id = s.game_id) ∨
    (update_clock env s).game_id = s.game_id + 1 := by
  simp only [update_clock]
  split_ifs
  all_goals first
    | exact Or.inl ⟨hg, rfl⟩
    | exact Or.inr rfl
    | (refine Or.inl ⟨?_, ?_⟩ <;>
        first
          | (simp only [update_game_over_game_over]
             exact cond_mono s _ rfl rfl rfl rfl hc)
          | simp only [update_game_over_untouched])

theorem after_tick_monotone (env : HQMEnv) (s : SrvState)
    (events : List HQMSimulationEvent) (hInv : game_over_inv s)
    (hg : s.game_over = true)
    (hid : (after_tick env s events).game_id = s.game_id) :
    (after_tick env s events).game_over = true := by
  have hcond : game_over_condition s = true := hInv hg
  have key : ∀ s2 : SrvState, CoreEq s s2 →
      (replay_check (update_clock env s2)).game_id = s.game_id →
      (replay_check (update_clock env s2)).game_over = true := by
    intro s2 hcore hid2
    obtain ⟨kc, kr, kb, kp, kg, ki⟩ := hcore
    have hg2 : s2.game_over = true := kg.trans hg
    have hcond2 : game_over_condition s2 = true := by
      rw [game_over_condition_fields s s2 kc kr kb kp]
      exact hcond
    rcases update_clock_go_cases env s2 hg2 hcond2 with ⟨hgo, _⟩ | hinc
    · rw [(replay_check_keeps _).1]
      exact hgo
    · exfalso
      rw [(replay_check_keeps _).2, hinc, ki] at hid2
      omega
  simp only [after_tick] at hid ⊢
  by_cases h1 : s.time = 0 ∧ s.period > 1
  · rw [if_pos h1] at hid ⊢
    exact key _ (coreEq_trans ⟨rfl, rfl, rfl, rfl, rfl, rfl⟩
      (coreEq_handle_events_end_of_period _ _)) hid
  · rw [if_neg h1] at hid ⊢
    by_cases h2 : s.pause_timer > 0 ∨ s.time = 0 ∨ s.game_over = true ∨
        s.period = 0 ∨ s.paused = true
    · rw [if_pos h2] at hid ⊢
      exact key _ ⟨rfl, rfl, rfl, rfl, rfl, rfl⟩ hid
    · exact absurd (Or.inr (Or.inr (Or.inl hg))) h2

/-- C7: within a single game (between two `new_game` calls) `game_over` is
monotone: along `after_tick` steps that do not start a new game (the game id
is unchanged), once `game_over` is true it stays true; the coherence
invariant (`game_over` implies the game-over condition of
`update_game_over`, the only writer of the flag inside `after_tick`) is
preserved by every `after_tick` step and established by `new_game`, which
starts the new game with `game_over` cleared. -/
theorem game_over_monotone_within_game (env : HQMEnv)
    (events : List HQMSimulationEvent) (s : SrvState)
    (hInv : game_over_inv s) :
    game_over_inv (after_tick env s events) ∧
    (s.game_over = true → (after_tick env s events).game_id = s.game_id →
      (after_tick env s events).game_over = true) ∧
    game_over_inv (new_game s) ∧ (new_game s).game_over = false :=
  ⟨after_tick_inv env s events hInv,
   fun hg hid => after_tick_monotone env s events hInv hg hid,
   new_game_inv s, rfl⟩

/-- Witness for C7 at a concrete state. -/
theorem game_over_monotone_within_game_witness :
    game_over_inv (after_tick env0 sBase []) ∧
    (new_game sBase).game_over = false :=
  ⟨(game_over_monotone_within_game env0 [] sBase
      (by intro h; simp [sBase] at h)).1,
   (game_over_monotone_within_game env0 [] sBase
      (by intro h; simp [sBase] at h)).2.2.2⟩
